import Mathlib

/-!
Verification of the balena-supervisor state-reconciliation core.

The domain model and the `Network` value type are shallowly embedded from
`src/compose/network.ts`.  The app planner (`App.nextStepsForAppUpdate`) and the
reconciliation entry point (`nextSteps`) are not part of this repository
snapshot (only their tests, in `test/34-compose-app.ts`, are); they are
modelled from the specification, with the repository's tests pinning the
behaviour wherever the two disagree.  Each such definition carries a doc
comment starting with `Modelled from the spec:`.

JavaScript objects used as string-to-string maps (labels, driver options,
container-id maps) are embedded as association lists with the key set of the
object; object equality (lodash `_.isEqual`) is embedded as extensional
equality of lookups over the keys of both operands.
-/

namespace Balena

/-- Association-list embedding of a JS object holding string values. -/
abbrev LabelMap := List (String × String)

/-- Property read `m[k]` on a JS string map (first binding wins; maps built
from JS objects have at most one binding per key). -/
def lookupLabel (m : LabelMap) (k : String) : Option String :=
  (m.find? (fun p => p.1 == k)).map (·.2)

/-- Embedding of lodash `_.omit(m, [k])`. -/
def omitLabel (m : LabelMap) (k : String) : LabelMap :=
  m.filter (fun p => p.1 != k)

/-- Embedding of the JS spread-and-overwrite idiom writing key `k` to `v`. -/
def setLabel (m : LabelMap) (k v : String) : LabelMap :=
  omitLabel m k ++ [(k, v)]

/-- Embedding of lodash `_.isEqual` on two JS string maps: the lookups agree on
every key appearing in either operand. -/
def mapsEqual (a b : LabelMap) : Bool :=
  (a.all fun p => lookupLabel a p.1 == lookupLabel b p.1) &&
  (b.all fun p => lookupLabel a p.1 == lookupLabel b p.1)

theorem mapsEqual_refl (a : LabelMap) : mapsEqual a a = true := by
  simp [mapsEqual, List.all_eq_true]

theorem omitLabel_setLabel (m : LabelMap) (k v : String) :
    omitLabel (setLabel m k v) k = omitLabel m k := by
  simp [setLabel, omitLabel, List.filter_append]

theorem omitLabel_omitLabel (m : LabelMap) (k : String) :
    omitLabel (omitLabel m k) k = omitLabel m k := by
  simp [omitLabel, List.filter_filter]

/-! ## The Network value type (src/compose/network.ts) -/

/-- One entry of an ipam `config` list; optional fields mirror the JS object,
where an absent property is embedded as `none`
(src/compose/network.ts, `NetworkConfig['ipam']['config'][0]`). -/
structure IPAMEntry where
  subnet : Option String := none
  gateway : Option String := none
  ipRange : Option String := none
  auxAddress : Option String := none
deriving DecidableEq

/-- The `ipam` part of a stored network config (src/compose/network.ts). -/
structure IPAMConfig where
  driver : String := "default"
  config : List IPAMEntry := []
  options : LabelMap := []
deriving DecidableEq

/-- The stored `NetworkConfig` of a Network (src/compose/types/network.ts as
used by src/compose/network.ts). -/
structure NetworkConfig where
  driver : String := "bridge"
  ipam : IPAMConfig := {}
  enableIPv6 : Bool := false
  internal : Bool := false
  labels : LabelMap := []
  options : LabelMap := []
deriving DecidableEq

/-- The Network value type (src/compose/network.ts:24). -/
structure Network where
  appId : Nat
  name : String
  config : NetworkConfig := {}
  uuid : Option String := none
deriving DecidableEq

/-- Embedding of lodash `_.isEqual` on two ipam objects: `driver` is a string,
`config` is a JS array (compared element-wise in order), `options` a JS map. -/
def ipamEqual (a b : IPAMConfig) : Bool :=
  a.driver == b.driver && decide (a.config = b.config) && mapsEqual a.options b.options

/-- Embedding of lodash `_.isEqual` on two stored network configs, with the
label and option maps compared as JS objects. -/
def networkConfigEqual (a b : NetworkConfig) : Bool :=
  a.driver == b.driver && ipamEqual a.ipam b.ipam &&
  a.enableIPv6 == b.enableIPv6 && decide (a.internal = b.internal) &&
  mapsEqual a.labels b.labels && mapsEqual a.options b.options

theorem ipamEqual_refl (a : IPAMConfig) : ipamEqual a a = true := by
  simp [ipamEqual, mapsEqual_refl]

theorem networkConfigEqual_refl (a : NetworkConfig) : networkConfigEqual a a = true := by
  simp [networkConfigEqual, ipamEqual_refl, mapsEqual_refl]

/-- Shallow embedding of `Network.isEqualConfig` (src/compose/network.ts:205).
In the JS source, `configToCompare = { ...this.config }` is a shallow copy: it
shares its `ipam` object with `this.config`, so the subsequent assignment
`configToCompare.ipam.config = []` (taken when the argument's `ipam.config` is
empty) also writes through to `this.config.ipam.config`.  The second component
of the result is therefore the post-call state of the receiver; the argument
is only read.  The two `labels` assignments store fresh `_.omit` results into
the shallow copies and do not write through. -/
def stripAppUuid (c : NetworkConfig) : NetworkConfig :=
  { c with labels := omitLabel c.labels "io.balena.app-uuid" }

def Network.isEqualConfigFull (self other : Network) : Bool × Network :=
  let selfPost :=
    if other.config.ipam.config.isEmpty then
      { self with config :=
        { self.config with ipam := { self.config.ipam with config := [] } } }
    else self
  (networkConfigEqual (stripAppUuid selfPost.config) (stripAppUuid other.config), selfPost)

/-- The boolean returned by `Network.isEqualConfig` (src/compose/network.ts:205). -/
def Network.isEqualConfig (self other : Network) : Bool :=
  (Network.isEqualConfigFull self other).1

/-! ## Network construction (src/compose/network.ts:83) -/

/-- The compose-file shape of an ipam block handed to `fromComposeObject`:
every field is optional (src/compose/network.ts:87-89). -/
structure ComposeIPAM where
  driver : Option String := none
  config : Option (List IPAMEntry) := none
  options : Option LabelMap := none
deriving DecidableEq

/-- The compose-file shape of a network handed to `fromComposeObject`
(`Partial<Omit<ComposeNetworkConfig, 'ipam'>> & { ipam?: ... }`). -/
structure ComposeNetworkConfig where
  driver : Option String := none
  driverOpts : Option LabelMap := none
  enableIPv6 : Option Bool := none
  internal : Option Bool := none
  labels : Option LabelMap := none
  ipam : Option ComposeIPAM := none
deriving DecidableEq

/-- Errors raised by the Network constructors (src/compose/errors.ts). -/
inductive NetworkError
  | invalidNetworkConfiguration (msg : String)
  | invalidNetworkName (name : String)
deriving DecidableEq

/-- Modelled from the spec: `ComposeUtils.normalizeLabels` lives in
compose/utils.ts, which is missing from this snapshot; the spec's label
contract (section 6) describes no label rewriting, so it is embedded as the
identity on label maps. -/
def normalizeLabels (l : LabelMap) : LabelMap := l

/-- Embedding of `_.get(config, 'config.ipam.config', [])` from
src/compose/network.ts:230.  The lodash path starts with a property named
`config`, but the compose network config object has no such property (its
properties are driver, driver_opts, enable_ipv6, internal, labels, ipam), so
the path lookup falls through to the default `[]` for every input. -/
def composeConfigPathLookup (_config : ComposeNetworkConfig) : List IPAMEntry := []

/-- Embedding of `Network.validateComposeConfig` (src/compose/network.ts:224):
iterate over the list produced by the lodash path lookup and throw
`InvalidNetworkConfigurationError` at the first entry missing a subnet or a
gateway. -/
def Network.validateComposeConfig (config : ComposeNetworkConfig) : Except NetworkError Unit :=
  if (composeConfigPathLookup config).any
      (fun e => e.subnet.isNone || e.gateway.isNone) then
    .error (.invalidNetworkConfiguration
      "Network IPAM config entries must have both a subnet and gateway")
  else
    .ok ()

/-- Embedding of `Network.fromComposeObject` (src/compose/network.ts:83):
validate, fill in ipam defaults, and build the stored config, adding the
`io.balena.app-uuid` label on top of the normalized compose labels. -/
def Network.fromComposeObject (name : String) (appId : Nat) (uuid : String)
    (network : ComposeNetworkConfig) : Except NetworkError Network := do
  Network.validateComposeConfig network
  let ipam0 := network.ipam.getD {}
  let ipam : IPAMConfig :=
    { driver := ipam0.driver.getD "default"
      config := ipam0.config.getD []
      options := ipam0.options.getD [] }
  let labels := setLabel (normalizeLabels (network.labels.getD [])) "io.balena.app-uuid" uuid
  return { appId := appId
           name := name
           config :=
             { driver := network.driver.getD "bridge"
               ipam := ipam
               enableIPv6 := network.enableIPv6.getD false
               internal := network.internal.getD false
               labels := labels
               options := network.driverOpts.getD [] }
           uuid := some uuid }

/-! ## Claims C8, C9, C10 — the Network value type -/

/-- A compose network config whose single ipam entry has neither subnet nor
gateway: the input the validator comment says must be rejected. -/
def invalidIpamCompose : ComposeNetworkConfig :=
  { ipam := some { config := some [{ subnet := none, gateway := none }] } }

/-- C8: the claim says `fromComposeObject` raises
`InvalidNetworkConfigurationError` whenever an ipam config entry is missing a
subnet or a gateway.  In the source the check reads the lodash path
`config.ipam.config` of the compose object, which does not exist, so the
validated list is always empty and construction succeeds on every input —
including a config whose only ipam entry has neither subnet nor gateway.  This
contradicts the source's own comment ("Check if every ipam config entry has
both a subnet and a gateway"): a code bug. -/
theorem fromComposeObject_accepts_invalid_ipam :
    (∀ (name : String) (appId : Nat) (uuid : String) (cfg : ComposeNetworkConfig),
      (Network.fromComposeObject name appId uuid cfg).isOk = true) ∧
    (Network.fromComposeObject "test-network" 1 "deadbeef" invalidIpamCompose).isOk = true := by
  refine ⟨fun name appId uuid cfg => rfl, rfl⟩

/-- The receiver used to exhibit the `isEqualConfig` mutation: one ipam entry. -/
def mutationReceiver : Network :=
  { appId := 1
    name := "net"
    config :=
      { ipam :=
        { config := [{ subnet := some "10.0.0.0/16", gateway := some "10.0.0.1" }] } } }

/-- The argument with an empty ipam config list, triggering the overwrite. -/
def mutationArgument : Network :=
  { appId := 1, name := "net" }

/-- C9: the claim says `a.isEqualConfig(b)` leaves both operands unchanged.
In the source `configToCompare = { ...this.config }` is only a shallow copy,
so `configToCompare.ipam.config = []` (taken whenever the argument's ipam
config list is empty) writes through to the receiver's `config.ipam.config`,
emptying it permanently.  The spec declares all core entities immutable and
the comment in the source only intends to skip the comparison, so this is a
code bug; evaluated here at a receiver with one ipam entry and an argument
with none. -/
theorem isEqualConfig_mutates_receiver :
    (Network.isEqualConfigFull mutationReceiver mutationArgument).2 ≠ mutationReceiver ∧
    (Network.isEqualConfigFull mutationReceiver mutationArgument).2.config.ipam.config = [] ∧
    mutationReceiver.config.ipam.config ≠ [] := by
  refine ⟨by decide, rfl, by decide⟩

/-- Overwrite the `io.balena.app-uuid` label of a network with value `v`. -/
def Network.withAppUuid (n : Network) (v : String) : Network :=
  { n with config :=
    { n.config with labels := setLabel n.config.labels "io.balena.app-uuid" v } }

/-- Drop the `io.balena.app-uuid` label of a network. -/
def Network.withoutAppUuid (n : Network) : Network :=
  { n with config := stripAppUuid n.config }

theorem isEqualConfig_eq (a b : Network) :
    Network.isEqualConfig a b =
      networkConfigEqual
        { driver := a.config.driver
          ipam := if b.config.ipam.config.isEmpty then
            { a.config.ipam with config := [] } else a.config.ipam
          enableIPv6 := a.config.enableIPv6
          internal := a.config.internal
          labels := omitLabel a.config.labels "io.balena.app-uuid"
          options := a.config.options }
        { driver := b.config.driver
          ipam := b.config.ipam
          enableIPv6 := b.config.enableIPv6
          internal := b.config.internal
          labels := omitLabel b.config.labels "io.balena.app-uuid"
          options := b.config.options } := by
  by_cases h : b.config.ipam.config.isEmpty <;>
    simp [Network.isEqualConfig, Network.isEqualConfigFull, stripAppUuid, h]

theorem networkConfigEqual_ipam_configs (a b : NetworkConfig)
    (h : networkConfigEqual a b = true) : a.ipam.config = b.ipam.config := by
  simp only [networkConfigEqual, ipamEqual, Bool.and_eq_true, decide_eq_true_eq] at h
  exact h.1.1.1.1.2.1.2

/-- C10: `isEqualConfig` compares both configs with the `io.balena.app-uuid`
label omitted, so overwriting or removing that label on either operand never
changes the result, and two networks whose configs agree except on that label
compare equal. -/
theorem isEqualConfig_ignores_app_uuid (a b : Network) (v : String) :
    Network.isEqualConfig (a.withAppUuid v) b = Network.isEqualConfig a b ∧
    Network.isEqualConfig a.withoutAppUuid b = Network.isEqualConfig a b ∧
    Network.isEqualConfig a (b.withAppUuid v) = Network.isEqualConfig a b ∧
    Network.isEqualConfig a b.withoutAppUuid = Network.isEqualConfig a b ∧
    (networkConfigEqual (stripAppUuid a.config) (stripAppUuid b.config) = true →
      Network.isEqualConfig a b = true) := by
  refine ⟨?_, ?_, ?_, ?_, ?_⟩
  · rw [isEqualConfig_eq, isEqualConfig_eq]
    simp [Network.withAppUuid, omitLabel_setLabel]
  · rw [isEqualConfig_eq, isEqualConfig_eq]
    simp [Network.withoutAppUuid, stripAppUuid, omitLabel_omitLabel]
  · rw [isEqualConfig_eq, isEqualConfig_eq]
    simp [Network.withAppUuid, omitLabel_setLabel]
  · rw [isEqualConfig_eq, isEqualConfig_eq]
    simp [Network.withoutAppUuid, stripAppUuid, omitLabel_omitLabel]
  · intro h
    rw [isEqualConfig_eq]
    by_cases hemp : b.config.ipam.config.isEmpty
    · have hips : a.config.ipam.config = b.config.ipam.config := by
        simpa [stripAppUuid] using
          networkConfigEqual_ipam_configs (stripAppUuid a.config) (stripAppUuid b.config) h
      have hnil : a.config.ipam.config = [] := by
        rw [hips]; exact List.isEmpty_iff.mp hemp
      have heta : { a.config.ipam with config := ([] : List IPAMEntry) } = a.config.ipam := by
        rw [← hnil]
      rw [if_pos hemp, heta]
      simpa [stripAppUuid] using h
    · rw [if_neg hemp]
      simpa [stripAppUuid] using h

/-- Two concrete networks differing only in their app-uuid labels. -/
def uuidNetA : Network :=
  { appId := 1, name := "n"
    config := { labels := [("io.balena.app-uuid", "aaa"), ("x", "1")] } }

/-- Companion network with a different app-uuid value. -/
def uuidNetB : Network :=
  { appId := 1, name := "n"
    config := { labels := [("io.balena.app-uuid", "bbb"), ("x", "1")] } }

/-- Witness for C10 at concrete networks differing only in the app-uuid label. -/
theorem isEqualConfig_ignores_app_uuid_witness :
    Network.isEqualConfig uuidNetA uuidNetB = true :=
  (isEqualConfig_ignores_app_uuid uuidNetA uuidNetB "v").2.2.2.2 (by decide)

/-! ## Domain model for the planner

The app planner (compose/app.ts) and the application manager are not part of
this repository snapshot; only their tests are (test/34-compose-app.ts).  The
definitions below are modelled from the specification, with the repository's
tests pinning the behaviour where noted. -/

/-- Modelled from the spec: the service lifecycle statuses (section 3). -/
inductive ServiceStatus
  | Installing
  | Installed
  | Running
  | Stopping
  | Stopped
  | Dead
  | Handover
deriving DecidableEq

/-- Modelled from the spec: the Volume config (section 3): driver, driver-opts
and labels, with the supervised labeling. -/
structure VolumeConfig where
  driver : String := "local"
  driverOpts : LabelMap := []
  labels : LabelMap := []
deriving DecidableEq

/-- Modelled from the spec: the Volume value type (section 3). -/
structure Volume where
  appId : Nat
  name : String
  config : VolumeConfig := {}
deriving DecidableEq

/-- Modelled from the spec: Volume.fromComposeObject normalizes the compose
labels and adds the io.balena.supervised marker (sections 3 and 6). -/
def Volume.fromComposeObject (name : String) (appId : Nat) (config : VolumeConfig) : Volume :=
  { appId := appId
    name := name
    config :=
      { config with
        labels := setLabel (normalizeLabels config.labels) "io.balena.supervised" "true" } }

/-- Modelled from the spec: Volume.isEqualConfig is deep structural equality of
the volume configs, with the option and label maps compared as JS objects
(sections 4.3(a) and 6). -/
def Volume.isEqualConfig (a b : Volume) : Bool :=
  a.config.driver == b.config.driver &&
  mapsEqual a.config.driverOpts b.config.driverOpts &&
  mapsEqual a.config.labels b.config.labels

/-- Modelled from the spec: the Service value type (section 3), restricted to
the attributes the planner consults.  The declarative config is flattened into
this structure: imageName is config.image (absent in several repository test
fixtures, hence optional), running is the config running flag, privileged
stands for the material container settings, volumes and networks are the
referenced names, labels carries the io.balena.* contract labels. -/
structure Service where
  appId : Nat := 1
  serviceName : String
  serviceId : Nat := 1
  releaseId : Nat := 1
  imageId : Nat := 1
  imageName : Option String := none
  containerId : Option String := none
  status : ServiceStatus := .Running
  running : Bool := true
  privileged : Bool := false
  labels : LabelMap := []
  volumes : List String := []
  networks : List String := []
  dependsOn : List String := []
deriving DecidableEq

/-- Modelled from the spec: the Image descriptor (section 3). -/
structure Image where
  imageId : Nat
  appId : Nat := 1
  serviceId : Nat := 1
  releaseId : Nat := 1
  serviceName : String := ""
  name : Option String := none
  dockerImageId : Option String := none
deriving DecidableEq

/-- Modelled from the spec: the runtime context handed to the planner
(section 3), with the process-wide containerStarted memo passed explicitly as
the design notes (section 9) suggest. -/
structure Context where
  localMode : Bool := false
  availableImages : List Image := []
  containerIds : LabelMap := []
  downloading : List Nat := []
  containerStarted : List String := []

/-- Modelled from the spec: the App tree (section 3); the name-keyed network
and volume maps are embedded as lists whose names are unique. -/
structure App where
  appId : Nat
  appUuid : String := ""
  services : List Service := []
  networks : List Network := []
  volumes : List Volume := []
deriving DecidableEq

/-- Modelled from the spec: the closed step vocabulary (section 4.1). -/
inductive Step
  | fetch (image : Image)
  | removeImage (image : Image)
  | createNetwork (target : Network)
  | removeNetwork (current : Network)
  | createVolume (target : Volume)
  | removeVolume (current : Volume)
  | start (target : Service)
  | stop (current : Service)
  | kill (current : Service)
  | remove (current : Service)
  | updateMetadata (current target : Service)
  | handover (current target : Service)
  | restart (current : Service)
  | noop
deriving DecidableEq

def App.lookupService (a : App) (name : String) : Option Service :=
  a.services.find? (fun s => s.serviceName == name)

def App.hasService (a : App) (name : String) : Bool :=
  (a.lookupService name).isSome

def App.lookupNetwork (a : App) (name : String) : Option Network :=
  a.networks.find? (fun n => n.name == name)

def App.hasNetwork (a : App) (name : String) : Bool :=
  (a.lookupNetwork name).isSome

def App.lookupVolume (a : App) (name : String) : Option Volume :=
  a.volumes.find? (fun v => v.name == name)

def App.hasVolume (a : App) (name : String) : Bool :=
  (a.lookupVolume name).isSome

/-! ## Image reference equivalence (modelled from the spec, section 4.2) -/

/-- Decide whether the second character list is a prefix of the first. -/
def beginsWith : List Char → List Char → Bool
  | _, [] => true
  | [], _ :: _ => false
  | b :: ls, a :: ps => a == b && beginsWith ls ps

/-- Decide whether the second character list occurs contiguously in the first. -/
def containsChars : List Char → List Char → Bool
  | [], p => p.isEmpty
  | c :: t, p => beginsWith (c :: t) p || containsChars t p

/-- Modelled from the spec: the reference with its optional digest suffix
stripped (section 4.2). -/
def dropDigest (s : String) : String :=
  String.mk (s.toList.takeWhile (fun c => c != '@'))

/-- Modelled from the spec: the digest suffix of a reference, when present. -/
def refDigest (s : String) : Option String :=
  match s.toList.dropWhile (fun c => c != '@') with
  | [] => none
  | _ :: t => some (String.mk t)

/-- Split a character list at the first slash. -/
def splitFirstSlash : List Char → Option (List Char × List Char)
  | [] => none
  | c :: t =>
    if c = '/' then some ([], t)
    else match splitFirstSlash t with
      | none => none
      | some (a, b) => some (c :: a, b)

/-- Modelled from the spec: strip a leading registry component (one containing
a dot or a colon) from a reference (section 4.2). -/
def stripRegistry (s : String) : String :=
  match splitFirstSlash s.toList with
  | none => s
  | some (first, rest) =>
    if first.contains '.' || first.contains ':' then String.mk rest else s

/-- Modelled from the spec: supply the default latest tag (section 4.2). -/
def withDefaultTag (s : String) : String :=
  if s.toList.contains ':' then s else s ++ ":latest"

/-- Modelled from the spec: the canonical repo-and-tag form of a reference
(section 4.2). -/
def canonicalRef (s : String) : String :=
  withDefaultTag (stripRegistry (dropDigest s))

/-- Modelled from the spec (section 4.2): two references denote the same image
when their canonical forms agree or either side's digest appears in the
other. -/
def isSameImage (a b : String) : Bool :=
  canonicalRef a == canonicalRef b ||
  (match refDigest a with
   | some d => containsChars b.toList d.toList
   | none => false) ||
  (match refDigest b with
   | some d => containsChars a.toList d.toList
   | none => false)

/-- Modelled from the spec (section 4.2): an image is available when some
inventory image matches the service by dockerImageId or by registry-name
equivalence.  The dockerImageId comparison is the JS strict equality of the
source, under which two absent values are equal — the repository tests rely on
this by listing images without a dockerImageId against services without an
image name. -/
def Service.isAvailable (s : Service) (ctx : Context) : Bool :=
  ctx.availableImages.any fun img =>
    img.dockerImageId == s.imageName ||
    (match img.name, s.imageName with
     | some n, some m => isSameImage n m
     | _, _ => false)

/-- Modelled from the spec (section 4.2): the service's imageId is in the
in-flight download set. -/
def Service.isDownloading (s : Service) (ctx : Context) : Bool :=
  ctx.downloading.contains s.imageId

/-- Modelled from the spec: the image descriptor the planner synthesizes for a
service when emitting fetch (sections 4.1 and 7). -/
def imageForService (s : Service) : Image :=
  { imageId := s.imageId
    appId := s.appId
    serviceId := s.serviceId
    releaseId := s.releaseId
    serviceName := s.serviceName
    name := s.imageName }

/-- Modelled from the spec (sections 4.3 and 5): fetch the service's image,
except that fetch steps are never emitted for an image already in
context.downloading — the planner emits noop instead. -/
def fetchOrNoop (ctx : Context) (s : Service) : Step :=
  if s.isDownloading ctx = true then .noop else .fetch (imageForService s)

/-- Whether a label key lives in the io.balena namespace. -/
def hasBalenaNamespace (k : String) : Bool :=
  beginsWith k.toList "io.balena.".toList

/-- Labels with the io.balena.* namespace removed (section 4.3.1: a material
change ignores those labels). -/
def stripBalenaLabels (l : LabelMap) : LabelMap :=
  l.filter (fun p => !hasBalenaNamespace p.1)

/-- Modelled from the spec (section 4.3.1): structural equality of the service
configs excluding the running flag, the io.balena.* labels and the release
metadata (releaseId, imageId). -/
def Service.isEqualExceptForRunningAndRelease (a b : Service) : Bool :=
  a.imageName == b.imageName &&
  decide (a.privileged = b.privileged) &&
  decide (a.volumes = b.volumes) &&
  decide (a.networks = b.networks) &&
  decide (a.dependsOn = b.dependsOn) &&
  mapsEqual (stripBalenaLabels a.labels) (stripBalenaLabels b.labels)

/-- Modelled from the spec (section 4.3.1): the recognized update strategies. -/
inductive UpdateStrategy
  | downloadThenKill
  | killThenDownload
  | deleteThenDownload
  | handOver
deriving DecidableEq

/-- Modelled from the spec (section 4.3.1): the update strategy named by the
io.balena.update.strategy label; absent or unknown values mean the default
download-then-kill. -/
def strategyOf (s : Service) : UpdateStrategy :=
  match lookupLabel s.labels "io.balena.update.strategy" with
  | some "kill-then-download" => .killThenDownload
  | some "delete-then-download" => .deleteThenDownload
  | some "hand-over" => .handOver
  | _ => .downloadThenKill

/-- Modelled from the spec (section 4.3(c).3): every dependsOn sibling is
present in current with status Running and its container (looked up through
context.containerIds) is in the containerStarted memo. -/
def dependenciesMet (ctx : Context) (current : App) (s : Service) : Bool :=
  s.dependsOn.all fun dep =>
    (current.services.any fun cs => cs.serviceName == dep && decide (cs.status = .Running)) &&
    (match lookupLabel ctx.containerIds dep with
     | some cid => ctx.containerStarted.contains cid
     | none => false)

/-- The volume name referenced by a compose volume entry (the part before the
first colon). -/
def volumeNameOf (entry : String) : String :=
  String.mk (entry.toList.takeWhile (fun c => c != ':'))

def Service.referencesVolume (s : Service) (name : String) : Bool :=
  s.volumes.any (fun v => volumeNameOf v == name)

def Service.referencesNetwork (s : Service) (name : String) : Bool :=
  s.networks.contains name

/-- Modelled from the spec (section 4.3(c).2): every network and volume the
service references exists in the current app state. -/
def resourcesReady (current : App) (s : Service) : Bool :=
  (s.volumes.all fun v => current.hasVolume (volumeNameOf v)) &&
  (s.networks.all fun n => current.hasNetwork n)

/-- Modelled from the spec (section 4.3(c), only-in-current): the service-kill
rules — a Stopping service is left to the engine (noop), a Dead one is
removed, any other is killed. -/
def serviceTeardownStep (s : Service) : Step :=
  match s.status with
  | .Stopping => .noop
  | .Dead => .remove s
  | _ => .kill s

/-- Modelled from the spec (section 4.3(c), only-in-target): preconditions in
order — image available (else fetch, or noop while downloading), referenced
networks and volumes present in current (else wait for the volume and network
steps of an earlier round), dependencies running and started (else noop),
then start. -/
def installSteps (ctx : Context) (current : App) (s : Service) : List Step :=
  if s.isAvailable ctx = false then [fetchOrNoop ctx s]
  else if resourcesReady current s = false then []
  else if dependenciesMet ctx current s = false then [.noop]
  else [.start s]

/-- Modelled from the spec (section 4.3(c), in-both): a Dead current container
is removed first; with materially equal configs a release-metadata change
yields updateMetadata and a running-flag change yields start or stop; a
material change consults the update strategy (section 4.3.1).  For the
default strategy with the new image available, the repository's test
('should recreate a container if the target configuration changes') pins a
stop of the current container as the first step. -/
def updatePairSteps (ctx : Context) (cs ts : Service) : List Step :=
  if cs.status = .Dead then [.remove cs]
  else if Service.isEqualExceptForRunningAndRelease cs ts = true then
    if cs.releaseId ≠ ts.releaseId ∨ cs.imageId ≠ ts.imageId then [.updateMetadata cs ts]
    else if cs.running ≠ ts.running then
      if ts.running = true then [.start ts] else [.stop cs]
    else []
  else
    match strategyOf ts with
    | .killThenDownload => [.kill cs]
    | .deleteThenDownload => [.kill cs, .removeImage (imageForService cs)]
    | .handOver =>
      if ts.isAvailable ctx = false then [fetchOrNoop ctx ts] else [.handover cs ts]
    | .downloadThenKill =>
      if ts.isAvailable ctx = false then [fetchOrNoop ctx ts] else [.stop cs]

/-- Modelled from the spec (section 4.3(c)): one pass over the union of service
names — paired services take the in-both rules, target-only services the
install rules, current-only services the teardown rules. -/
def serviceSteps (ctx : Context) (current target : App) : List Step :=
  (target.services.flatMap fun ts =>
    match current.lookupService ts.serviceName with
    | some cs => updatePairSteps ctx cs ts
    | none => installSteps ctx current ts) ++
  ((current.services.filter fun cs => !(target.hasService cs.serviceName)).map
    serviceTeardownStep)

/-- Modelled from the spec (section 4.3(a)): services still referencing a
volume slated for recreation are torn down first, by the service-kill rules;
only once none references it is removeVolume emitted. -/
def volumeRecreationSteps (current : App) (cv : Volume) : List Step :=
  let dependents := current.services.filter fun s => s.referencesVolume cv.name
  if dependents.isEmpty then [.removeVolume cv] else dependents.map serviceTeardownStep

/-- Modelled from the spec (section 4.3(a)): createVolume for target volumes
absent from current; recreation handling for names on both sides with unequal
configs; volumes only in current are deferred to the cross-app planner. -/
def volumeSteps (current target : App) : List Step :=
  ((target.volumes.filter fun tv => !(current.hasVolume tv.name)).map .createVolume) ++
  (target.volumes.flatMap fun tv =>
    match current.lookupVolume tv.name with
    | some cv =>
      if Volume.isEqualConfig cv tv = true then [] else volumeRecreationSteps current cv
    | none => [])

/-- Modelled from the spec (section 4.3(b)): the synthesized default network,
built exactly as Network.fromComposeObject builds it from an empty compose
config (default driver bridge). -/
def defaultNetworkFor (appId : Nat) (uuid : String) : Network :=
  (Network.fromComposeObject "default" appId uuid {}).toOption.getD
    { appId := appId, name := "default" }

/-- Modelled from the spec (section 4.3(b)): the target networks extended with
a synthesized default network when absent.  The repository's test ('should
create the default network if it does not exist') shows the default network
is ensured even for an app with no services, so the spec's at-least-one-
service condition is not applied here. -/
def targetNetworks (target : App) : List Network :=
  if target.hasNetwork "default" = true then target.networks
  else target.networks ++ [defaultNetworkFor target.appId target.appUuid]

/-- Modelled from the spec (section 4.3(b)): dependents are torn down before a
network is removed (pinned by the repository's tests on killing network
dependents before removal or config change). -/
def networkRemovalSteps (current : App) (cn : Network) : List Step :=
  let dependents := current.services.filter fun s => s.referencesNetwork cn.name
  if dependents.isEmpty then [.removeNetwork cn] else dependents.map serviceTeardownStep

/-- Modelled from the spec (section 4.3(b)): network steps mirror volume steps,
except that a default network is guaranteed, and networks only in current are
removed by the app planner itself (pinned by the repository's test 'should
correctly infer a network remove step'). -/
def networkSteps (current target : App) : List Step :=
  ((targetNetworks target).filter (fun tn => !(current.hasNetwork tn.name))).map .createNetwork ++
  ((targetNetworks target).flatMap fun tn =>
    match current.lookupNetwork tn.name with
    | some cn =>
      if Network.isEqualConfig cn tn = true then [] else networkRemovalSteps current cn
    | none => []) ++
  ((current.networks.filter fun cn =>
      !((targetNetworks target).any fun tn => tn.name == cn.name)).flatMap
    fun cn => networkRemovalSteps current cn)

/-- Modelled from the spec (section 4.3): the per-app planner, assembling the
volume, network and service step families for one app. -/
def App.nextStepsForAppUpdate (current : App) (ctx : Context) (target : App) : List Step :=
  volumeSteps current target ++ networkSteps current target ++ serviceSteps ctx current target

/-- Modelled from the spec (section 4.4): teardown of a current app absent from
the target state — services are torn down first; only when none remain are
its networks and volumes removed. -/
def appTeardownSteps (a : App) : List Step :=
  if a.services.isEmpty then
    (a.networks.map .removeNetwork) ++ (a.volumes.map .removeVolume)
  else a.services.map serviceTeardownStep

/-- Modelled from the spec (section 4.5): the reconciliation entry point — run
the per-app planners over the target apps (pairing by appId, with an empty
current app for new apps), add cross-app teardown for current apps absent
from target, and return a single noop when nothing can progress but downloads
are still in flight.  The global supervisor0 network and the cross-app
removeImage sweep consult the engine and image store directly and live
outside the modelled state. -/
def nextSteps (ctx : Context) (currentApps targetApps : List App) : List Step :=
  let perApp := targetApps.flatMap fun t =>
    match currentApps.find? (fun c => c.appId == t.appId) with
    | some c => c.nextStepsForAppUpdate ctx t
    | none => App.nextStepsForAppUpdate { appId := t.appId, appUuid := t.appUuid } ctx t
  let removals :=
    (currentApps.filter fun c => !(targetApps.any fun t => t.appId == c.appId)).flatMap
      appTeardownSteps
  let steps := perApp ++ removals
  if steps.isEmpty = true ∧ ctx.downloading ≠ [] then [.noop] else steps

/-- Modelled from the spec (section 4.1): noop carries no payload and executing
it performs no mutation of the state. -/
def applyNoop (s : List App) : List App := s

/-! ## List and lookup lemmas -/

theorem bool_true_of_not_false {b : Bool} (h : ¬ b = false) : b = true := by
  cases b with
  | true => rfl
  | false => exact absurd rfl h

theorem filter_forall_false {α : Type} {p : α → Bool} {l : List α}
    (h : l.filter p = []) : ∀ a ∈ l, p a = false := by
  intro a ha
  cases hp : p a with
  | false => rfl
  | true => exact absurd (List.mem_filter.mpr ⟨ha, hp⟩) (by simp [h])

theorem filter_nil_of_forall {α : Type} {p : α → Bool} {l : List α}
    (h : ∀ a ∈ l, p a = false) : l.filter p = [] := by
  induction l with
  | nil => rfl
  | cons a t ih =>
    rw [List.filter_cons, h a (by simp)]
    exact ih (fun b hb => h b (by simp [hb]))

theorem flatMap_nil_of_forall {α β : Type} {f : α → List β} {l : List α}
    (h : ∀ a ∈ l, f a = []) : l.flatMap f = [] := by
  induction l with
  | nil => rfl
  | cons a t ih =>
    rw [List.flatMap_cons, h a (by simp)]
    exact ih (fun b hb => h b (by simp [hb]))

theorem find?_key_self {α β : Type} [BEq β] [LawfulBEq β] (key : α → β) {l : List α} {x : α}
    (hnd : (l.map key).Nodup) (hx : x ∈ l) :
    l.find? (fun y => key y == key x) = some x := by
  induction l with
  | nil => cases hx
  | cons a t ih =>
    rcases List.mem_cons.mp hx with h | h
    · subst h
      exact List.find?_cons_of_pos _ (by simp)
    · have hmap : (key a :: t.map key).Nodup := by simpa using hnd
      have hne : key a ≠ key x := by
        intro he
        have hmem : key x ∈ t.map key := List.mem_map_of_mem key h
        rw [← he] at hmem
        exact (List.nodup_cons.mp hmap).1 hmem
      rw [List.find?_cons_of_neg _ (by simpa using hne)]
      exact ih (List.nodup_cons.mp hmap).2 h

theorem hasService_of_mem {a : App} {s : Service} (h : s ∈ a.services) :
    a.hasService s.serviceName = true := by
  simp only [App.hasService, App.lookupService]
  rw [List.find?_isSome]
  exact ⟨s, h, by simp⟩

theorem hasNetwork_of_mem {a : App} {n : Network} (h : n ∈ a.networks) :
    a.hasNetwork n.name = true := by
  simp only [App.hasNetwork, App.lookupNetwork]
  rw [List.find?_isSome]
  exact ⟨n, h, by simp⟩

theorem hasVolume_of_mem {a : App} {v : Volume} (h : v ∈ a.volumes) :
    a.hasVolume v.name = true := by
  simp only [App.hasVolume, App.lookupVolume]
  rw [List.find?_isSome]
  exact ⟨v, h, by simp⟩

theorem lookupVolume_name {a : App} {nm : String} {v : Volume}
    (h : a.lookupVolume nm = some v) : v.name = nm ∧ v ∈ a.volumes := by
  refine ⟨?_, List.mem_of_find?_eq_some h⟩
  have := List.find?_some h
  simpa using this

theorem lookupNetwork_name {a : App} {nm : String} {n : Network}
    (h : a.lookupNetwork nm = some n) : n.name = nm ∧ n ∈ a.networks := by
  refine ⟨?_, List.mem_of_find?_eq_some h⟩
  have := List.find?_some h
  simpa using this

theorem lookupService_name {a : App} {nm : String} {s : Service}
    (h : a.lookupService nm = some s) : s.serviceName = nm ∧ s ∈ a.services := by
  refine ⟨?_, List.mem_of_find?_eq_some h⟩
  have := List.find?_some h
  simpa using this

/-! ## Shape lemmas for the step generators -/

theorem teardownStep_cases (s : Service) :
    (serviceTeardownStep s = .noop ∧ s.status = .Stopping) ∨
    (serviceTeardownStep s = .remove s ∧ s.status = .Dead) ∨
    (serviceTeardownStep s = .kill s ∧ s.status ≠ .Stopping ∧ s.status ≠ .Dead) := by
  cases h : s.status <;> simp [serviceTeardownStep, h]

theorem volumeSteps_mem {current target : App} {x : Step}
    (hx : x ∈ volumeSteps current target) :
    (∃ v, v ∈ target.volumes ∧ current.hasVolume v.name = false ∧ x = .createVolume v) ∨
    (∃ v, current.hasVolume v.name = true ∧
      (∀ s ∈ current.services, s.referencesVolume v.name = false) ∧ x = .removeVolume v) ∨
    (∃ s, s ∈ current.services ∧ x = serviceTeardownStep s) := by
  rcases List.mem_append.mp hx with h | h
  · rcases List.mem_map.mp h with ⟨v, hv, rfl⟩
    rcases List.mem_filter.mp hv with ⟨hvm, hvf⟩
    exact Or.inl ⟨v, hvm, by simpa using hvf, rfl⟩
  · rcases List.mem_flatMap.mp h with ⟨tv, htv, hxin⟩
    cases hcv : current.lookupVolume tv.name with
    | none => rw [hcv] at hxin; exact absurd hxin (List.not_mem_nil x)
    | some cv =>
      rw [hcv] at hxin
      replace hxin : x ∈ (if Volume.isEqualConfig cv tv = true then ([] : List Step)
        else volumeRecreationSteps current cv) := hxin
      by_cases heq : Volume.isEqualConfig cv tv = true
      · rw [if_pos heq] at hxin; cases hxin
      · rw [if_neg heq] at hxin
        unfold volumeRecreationSteps at hxin
        by_cases hdep :
            (current.services.filter fun s => s.referencesVolume cv.name).isEmpty = true
        · rw [if_pos hdep] at hxin
          rcases List.mem_singleton.mp hxin with rfl
          refine Or.inr (Or.inl ⟨cv, ?_, ?_, rfl⟩)
          · have hnm := (lookupVolume_name hcv).1
            rw [hnm]
            simp [App.hasVolume, hcv]
          · intro s hs
            exact filter_forall_false (List.isEmpty_iff.mp hdep) s hs
        · rw [if_neg hdep] at hxin
          rcases List.mem_map.mp hxin with ⟨s, hs, rfl⟩
          exact Or.inr (Or.inr ⟨s, (List.mem_filter.mp hs).1, rfl⟩)

theorem networkSteps_mem {current target : App} {x : Step}
    (hx : x ∈ networkSteps current target) :
    (∃ n, x = .createNetwork n) ∨ (∃ n, x = .removeNetwork n) ∨
    (∃ s, s ∈ current.services ∧ x = serviceTeardownStep s) := by
  have removal : ∀ cn : Network, x ∈ networkRemovalSteps current cn →
      (∃ n, x = .createNetwork n) ∨ (∃ n, x = .removeNetwork n) ∨
      (∃ s, s ∈ current.services ∧ x = serviceTeardownStep s) := by
    intro cn hxin
    unfold networkRemovalSteps at hxin
    by_cases hdep :
        (current.services.filter fun s => s.referencesNetwork cn.name).isEmpty = true
    · rw [if_pos hdep] at hxin
      rcases List.mem_singleton.mp hxin with rfl
      exact Or.inr (Or.inl ⟨cn, rfl⟩)
    · rw [if_neg hdep] at hxin
      rcases List.mem_map.mp hxin with ⟨s, hs, rfl⟩
      exact Or.inr (Or.inr ⟨s, (List.mem_filter.mp hs).1, rfl⟩)
  rcases List.mem_append.mp hx with h | h
  · rcases List.mem_append.mp h with h' | h'
    · rcases List.mem_map.mp h' with ⟨n, _, rfl⟩
      exact Or.inl ⟨n, rfl⟩
    · rcases List.mem_flatMap.mp h' with ⟨tn, htn, hxin⟩
      cases hcn : current.lookupNetwork tn.name with
      | none => rw [hcn] at hxin; exact absurd hxin (List.not_mem_nil x)
      | some cn =>
        rw [hcn] at hxin
        replace hxin : x ∈ (if Network.isEqualConfig cn tn = true then ([] : List Step)
          else networkRemovalSteps current cn) := hxin
        by_cases heq : Network.isEqualConfig cn tn = true
        · rw [if_pos heq] at hxin; cases hxin
        · rw [if_neg heq] at hxin
          exact removal cn hxin
  · rcases List.mem_flatMap.mp h with ⟨cn, _, hxin⟩
    exact removal cn hxin

theorem installSteps_mem {ctx : Context} {current : App} {s : Service} {x : Step}
    (hx : x ∈ installSteps ctx current s) :
    (x = .fetch (imageForService s) ∧ s.isAvailable ctx = false ∧
      s.isDownloading ctx = false) ∨
    x = .noop ∨
    (x = .start s ∧ s.isAvailable ctx = true ∧ resourcesReady current s = true ∧
      dependenciesMet ctx current s = true) := by
  unfold installSteps at hx
  by_cases hav : s.isAvailable ctx = false
  · rw [if_pos hav] at hx
    rcases List.mem_singleton.mp hx with rfl
    unfold fetchOrNoop
    by_cases hdl : s.isDownloading ctx = true
    · rw [if_pos hdl]; exact Or.inr (Or.inl rfl)
    · rw [if_neg hdl]
      exact Or.inl ⟨rfl, hav, by simpa using hdl⟩
  · rw [if_neg hav] at hx
    by_cases hres : resourcesReady current s = false
    · rw [if_pos hres] at hx; cases hx
    · rw [if_neg hres] at hx
      by_cases hdeps : dependenciesMet ctx current s = false
      · rw [if_pos hdeps] at hx
        rcases List.mem_singleton.mp hx with rfl
        exact Or.inr (Or.inl rfl)
      · rw [if_neg hdeps] at hx
        rcases List.mem_singleton.mp hx with rfl
        exact Or.inr (Or.inr ⟨rfl, bool_true_of_not_false hav,
          bool_true_of_not_false hres, bool_true_of_not_false hdeps⟩)

theorem bool_false_of_not_true {b : Bool} (h : ¬ b = true) : b = false := by
  cases b with
  | false => rfl
  | true => exact absurd rfl h

theorem updatePairSteps_mem {ctx : Context} {cs ts : Service} {x : Step}
    (hx : x ∈ updatePairSteps ctx cs ts) :
    (x = .remove cs ∧ cs.status = .Dead) ∨
    x = .updateMetadata cs ts ∨ x = .start ts ∨ x = .stop cs ∨
    x = .kill cs ∨ x = .removeImage (imageForService cs) ∨
    x = .handover cs ts ∨ x = .noop ∨
    (x = .fetch (imageForService ts) ∧ ts.isDownloading ctx = false) := by
  unfold updatePairSteps at hx
  by_cases hdead : cs.status = .Dead
  · rw [if_pos hdead] at hx
    rcases List.mem_singleton.mp hx with rfl
    exact Or.inl ⟨rfl, hdead⟩
  · rw [if_neg hdead] at hx
    by_cases heq : Service.isEqualExceptForRunningAndRelease cs ts = true
    · rw [if_pos heq] at hx
      by_cases hrel : cs.releaseId ≠ ts.releaseId ∨ cs.imageId ≠ ts.imageId
      · rw [if_pos hrel] at hx
        rcases List.mem_singleton.mp hx with rfl
        exact Or.inr (Or.inl rfl)
      · rw [if_neg hrel] at hx
        by_cases hrun : cs.running ≠ ts.running
        · rw [if_pos hrun] at hx
          by_cases htr : ts.running = true
          · rw [if_pos htr] at hx
            rcases List.mem_singleton.mp hx with rfl
            exact Or.inr (Or.inr (Or.inl rfl))
          · rw [if_neg htr] at hx
            rcases List.mem_singleton.mp hx with rfl
            exact Or.inr (Or.inr (Or.inr (Or.inl rfl)))
        · rw [if_neg hrun] at hx
          cases hx
    · rw [if_neg heq] at hx
      cases hstrat : strategyOf ts with
      | killThenDownload =>
        rw [hstrat] at hx
        replace hx : x ∈ [Step.kill cs] := hx
        rcases List.mem_singleton.mp hx with rfl
        exact Or.inr (Or.inr (Or.inr (Or.inr (Or.inl rfl))))
      | deleteThenDownload =>
        rw [hstrat] at hx
        replace hx : x ∈ [Step.kill cs, Step.removeImage (imageForService cs)] := hx
        rcases List.mem_cons.mp hx with rfl | hx'
        · exact Or.inr (Or.inr (Or.inr (Or.inr (Or.inl rfl))))
        · rcases List.mem_singleton.mp hx' with rfl
          exact Or.inr (Or.inr (Or.inr (Or.inr (Or.inr (Or.inl rfl)))))
      | handOver =>
        rw [hstrat] at hx
        replace hx : x ∈ (if ts.isAvailable ctx = false then [fetchOrNoop ctx ts]
          else [Step.handover cs ts]) := hx
        by_cases hav : ts.isAvailable ctx = false
        · rw [if_pos hav] at hx
          rcases List.mem_singleton.mp hx with rfl
          unfold fetchOrNoop
          by_cases hdl : ts.isDownloading ctx = true
          · rw [if_pos hdl]
            exact Or.inr (Or.inr (Or.inr (Or.inr (Or.inr (Or.inr (Or.inr (Or.inl rfl)))))))
          · rw [if_neg hdl]
            exact Or.inr (Or.inr (Or.inr (Or.inr (Or.inr (Or.inr (Or.inr (Or.inr
              ⟨rfl, bool_false_of_not_true hdl⟩)))))))
        · rw [if_neg hav] at hx
          rcases List.mem_singleton.mp hx with rfl
          exact Or.inr (Or.inr (Or.inr (Or.inr (Or.inr (Or.inr (Or.inl rfl))))))
      | downloadThenKill =>
        rw [hstrat] at hx
        replace hx : x ∈ (if ts.isAvailable ctx = false then [fetchOrNoop ctx ts]
          else [Step.stop cs]) := hx
        by_cases hav : ts.isAvailable ctx = false
        · rw [if_pos hav] at hx
          rcases List.mem_singleton.mp hx with rfl
          unfold fetchOrNoop
          by_cases hdl : ts.isDownloading ctx = true
          · rw [if_pos hdl]
            exact Or.inr (Or.inr (Or.inr (Or.inr (Or.inr (Or.inr (Or.inr (Or.inl rfl)))))))
          · rw [if_neg hdl]
            exact Or.inr (Or.inr (Or.inr (Or.inr (Or.inr (Or.inr (Or.inr (Or.inr
              ⟨rfl, bool_false_of_not_true hdl⟩)))))))
        · rw [if_neg hav] at hx
          rcases List.mem_singleton.mp hx with rfl
          exact Or.inr (Or.inr (Or.inr (Or.inl rfl)))

theorem serviceSteps_mem {ctx : Context} {current target : App} {x : Step}
    (hx : x ∈ serviceSteps ctx current target) :
    (∃ cs ts, ts ∈ target.services ∧ current.lookupService ts.serviceName = some cs ∧
      x ∈ updatePairSteps ctx cs ts) ∨
    (∃ ts, ts ∈ target.services ∧ current.lookupService ts.serviceName = none ∧
      x ∈ installSteps ctx current ts) ∨
    (∃ cs, cs ∈ current.services ∧ target.hasService cs.serviceName = false ∧
      x = serviceTeardownStep cs) := by
  rcases List.mem_append.mp hx with h | h
  · rcases List.mem_flatMap.mp h with ⟨ts, hts, hxin⟩
    cases hcs : current.lookupService ts.serviceName with
    | none =>
      rw [hcs] at hxin
      exact Or.inr (Or.inl ⟨ts, hts, hcs, hxin⟩)
    | some cs =>
      rw [hcs] at hxin
      exact Or.inl ⟨cs, ts, hts, hcs, hxin⟩
  · rcases List.mem_map.mp h with ⟨cs, hcs, rfl⟩
    rcases List.mem_filter.mp hcs with ⟨hmem, hflt⟩
    exact Or.inr (Or.inr ⟨cs, hmem, by simpa using hflt, rfl⟩)

theorem appUpdateSteps_mem {ctx : Context} {current target : App} {x : Step}
    (hx : x ∈ App.nextStepsForAppUpdate current ctx target) :
    x ∈ volumeSteps current target ∨ x ∈ networkSteps current target ∨
    x ∈ serviceSteps ctx current target := by
  unfold App.nextStepsForAppUpdate at hx
  rcases List.mem_append.mp hx with h | h
  · rcases List.mem_append.mp h with h' | h'
    · exact Or.inl h'
    · exact Or.inr (Or.inl h')
  · exact Or.inr (Or.inr h)

theorem volumeSteps_sub {ctx : Context} {current target : App} {x : Step}
    (h : x ∈ volumeSteps current target) :
    x ∈ App.nextStepsForAppUpdate current ctx target :=
  List.mem_append.mpr (Or.inl (List.mem_append.mpr (Or.inl h)))

theorem networkSteps_sub {ctx : Context} {current target : App} {x : Step}
    (h : x ∈ networkSteps current target) :
    x ∈ App.nextStepsForAppUpdate current ctx target :=
  List.mem_append.mpr (Or.inl (List.mem_append.mpr (Or.inr h)))

theorem serviceSteps_sub {ctx : Context} {current target : App} {x : Step}
    (h : x ∈ serviceSteps ctx current target) :
    x ∈ App.nextStepsForAppUpdate current ctx target :=
  List.mem_append.mpr (Or.inr h)

theorem updatePair_mem_serviceSteps {ctx : Context} {current target : App}
    {cs ts : Service} {x : Step} (hts : ts ∈ target.services)
    (hcs : current.lookupService ts.serviceName = some cs)
    (hx : x ∈ updatePairSteps ctx cs ts) : x ∈ serviceSteps ctx current target := by
  unfold serviceSteps
  refine List.mem_append.mpr (Or.inl (List.mem_flatMap.mpr ⟨ts, hts, ?_⟩))
  rw [hcs]
  exact hx

theorem install_mem_serviceSteps {ctx : Context} {current target : App}
    {ts : Service} {x : Step} (hts : ts ∈ target.services)
    (hcs : current.lookupService ts.serviceName = none)
    (hx : x ∈ installSteps ctx current ts) : x ∈ serviceSteps ctx current target := by
  unfold serviceSteps
  refine List.mem_append.mpr (Or.inl (List.mem_flatMap.mpr ⟨ts, hts, ?_⟩))
  rw [hcs]
  exact hx

theorem teardown_mem_serviceSteps {ctx : Context} {current target : App}
    {cs : Service} (hcs : cs ∈ current.services)
    (hhas : target.hasService cs.serviceName = false) :
    serviceTeardownStep cs ∈ serviceSteps ctx current target := by
  unfold serviceSteps
  refine List.mem_append.mpr (Or.inr (List.mem_map.mpr ⟨cs, ?_, rfl⟩))
  exact List.mem_filter.mpr ⟨hcs, by simp [hhas]⟩

theorem teardownStep_eq_kill {s' s : Service} (h : serviceTeardownStep s' = .kill s) :
    s = s' ∧ s'.status ≠ .Stopping ∧ s'.status ≠ .Dead := by
  rcases teardownStep_cases s' with ⟨he, _⟩ | ⟨he, _⟩ | ⟨he, h1, h2⟩
  · rw [he] at h; exact absurd h (by simp)
  · rw [he] at h; exact absurd h (by simp)
  · rw [he] at h
    injection h with h3
    exact ⟨h3.symm, h1, h2⟩

theorem teardownStep_eq_remove {s' s : Service} (h : serviceTeardownStep s' = .remove s) :
    s = s' ∧ s'.status = .Dead := by
  rcases teardownStep_cases s' with ⟨he, _⟩ | ⟨he, h1⟩ | ⟨he, _, _⟩
  · rw [he] at h; exact absurd h (by simp)
  · rw [he] at h
    injection h with h3
    exact ⟨h3.symm, h1⟩
  · rw [he] at h; exact absurd h (by simp)

theorem teardownStep_ne_fetch (s : Service) (img : Image) :
    serviceTeardownStep s ≠ .fetch img := by
  rcases teardownStep_cases s with ⟨he, _⟩ | ⟨he, _⟩ | ⟨he, _, _⟩ <;> simp [he]

theorem teardownStep_ne_start (s ts : Service) :
    serviceTeardownStep s ≠ .start ts := by
  rcases teardownStep_cases s with ⟨he, _⟩ | ⟨he, _⟩ | ⟨he, _, _⟩ <;> simp [he]


/-! ## Step source lemmas -/

theorem kill_source {ctx : Context} {current target : App} {s : Service}
    (h : Step.kill s ∈ App.nextStepsForAppUpdate current ctx target) :
    (s ∈ current.services ∧ s.status ≠ .Stopping ∧ s.status ≠ .Dead) ∨
    target.hasService s.serviceName = true := by
  rcases appUpdateSteps_mem h with h | h | h
  · rcases volumeSteps_mem h with ⟨v, _, _, he⟩ | ⟨v, _, _, he⟩ | ⟨s', hs', he⟩
    · simp at he
    · simp at he
    · rcases teardownStep_eq_kill he.symm with ⟨rfl, h1, h2⟩
      exact Or.inl ⟨hs', h1, h2⟩
  · rcases networkSteps_mem h with ⟨n, he⟩ | ⟨n, he⟩ | ⟨s', hs', he⟩
    · simp at he
    · simp at he
    · rcases teardownStep_eq_kill he.symm with ⟨rfl, h1, h2⟩
      exact Or.inl ⟨hs', h1, h2⟩
  · rcases serviceSteps_mem h with ⟨cs, ts, hts, hlk, hx⟩ | ⟨ts, hts, hlk, hx⟩ | ⟨cs, hcs, _, he⟩
    · rcases updatePairSteps_mem hx with ⟨he, _⟩ | he | he | he | he | he | he | he | ⟨he, _⟩
      · simp at he
      · simp at he
      · simp at he
      · simp at he
      · injection he with he'
        subst he'
        right
        rw [(lookupService_name hlk).1]
        exact hasService_of_mem hts
      · simp at he
      · simp at he
      · simp at he
      · simp at he
    · rcases installSteps_mem hx with ⟨he, _⟩ | he | ⟨he, _⟩ <;> simp at he
    · rcases teardownStep_eq_kill he.symm with ⟨rfl, h1, h2⟩
      exact Or.inl ⟨hcs, h1, h2⟩

theorem remove_source {ctx : Context} {current target : App} {s : Service}
    (h : Step.remove s ∈ App.nextStepsForAppUpdate current ctx target) :
    s.status = .Dead := by
  rcases appUpdateSteps_mem h with h | h | h
  · rcases volumeSteps_mem h with ⟨v, _, _, he⟩ | ⟨v, _, _, he⟩ | ⟨s', _, he⟩
    · simp at he
    · simp at he
    · rcases teardownStep_eq_remove he.symm with ⟨rfl, hd⟩
      exact hd
  · rcases networkSteps_mem h with ⟨n, he⟩ | ⟨n, he⟩ | ⟨s', _, he⟩
    · simp at he
    · simp at he
    · rcases teardownStep_eq_remove he.symm with ⟨rfl, hd⟩
      exact hd
  · rcases serviceSteps_mem h with ⟨cs, ts, hts, hlk, hx⟩ | ⟨ts, hts, hlk, hx⟩ | ⟨cs, _, _, he⟩
    · rcases updatePairSteps_mem hx with ⟨he, hd⟩ | he | he | he | he | he | he | he | ⟨he, _⟩
      · injection he with he'
        subst he'
        exact hd
      · simp at he
      · simp at he
      · simp at he
      · simp at he
      · simp at he
      · simp at he
      · simp at he
      · simp at he
    · rcases installSteps_mem hx with ⟨he, _⟩ | he | ⟨he, _⟩ <;> simp at he
    · rcases teardownStep_eq_remove he.symm with ⟨rfl, hd⟩
      exact hd

theorem fetch_source {ctx : Context} {current target : App} {img : Image}
    (h : Step.fetch img ∈ App.nextStepsForAppUpdate current ctx target) :
    ∃ ts, img = imageForService ts ∧ ts.isDownloading ctx = false := by
  rcases appUpdateSteps_mem h with h | h | h
  · rcases volumeSteps_mem h with ⟨v, _, _, he⟩ | ⟨v, _, _, he⟩ | ⟨s', _, he⟩
    · simp at he
    · simp at he
    · exact absurd he.symm (teardownStep_ne_fetch s' img)
  · rcases networkSteps_mem h with ⟨n, he⟩ | ⟨n, he⟩ | ⟨s', _, he⟩
    · simp at he
    · simp at he
    · exact absurd he.symm (teardownStep_ne_fetch s' img)
  · rcases serviceSteps_mem h with ⟨cs, ts, hts, hlk, hx⟩ | ⟨ts, hts, hlk, hx⟩ | ⟨cs, _, _, he⟩
    · rcases updatePairSteps_mem hx with ⟨he, _⟩ | he | he | he | he | he | he | he | ⟨he, hdl⟩
      · simp at he
      · simp at he
      · simp at he
      · simp at he
      · simp at he
      · simp at he
      · simp at he
      · simp at he
      · injection he with he'
        exact ⟨ts, he', hdl⟩
    · rcases installSteps_mem hx with ⟨he, _, hdl⟩ | he | ⟨he, _⟩
      · injection he with he'
        exact ⟨ts, he', hdl⟩
      · simp at he
      · simp at he
    · exact absurd he.symm (teardownStep_ne_fetch cs img)

/-! ## Claim C7 — default network guarantee -/

theorem defaultNetworkFor_name (appId : Nat) (uuid : String) :
    (defaultNetworkFor appId uuid).name = "default" := rfl

theorem targetNetworks_default (target : App) :
    ∃ n, n ∈ targetNetworks target ∧ n.name = "default" := by
  unfold targetNetworks
  by_cases h : target.hasNetwork "default" = true
  · rw [if_pos h]
    unfold App.hasNetwork at h
    cases hl : target.lookupNetwork "default" with
    | none => rw [hl] at h; simp at h
    | some n => exact ⟨n, (lookupNetwork_name hl).2, (lookupNetwork_name hl).1⟩
  · rw [if_neg h]
    exact ⟨defaultNetworkFor target.appId target.appUuid, by simp,
      defaultNetworkFor_name _ _⟩

theorem createNetwork_mem {current target : App} {n : Network}
    (hn : n ∈ targetNetworks target) (habs : current.hasNetwork n.name = false) :
    Step.createNetwork n ∈ networkSteps current target := by
  unfold networkSteps
  refine List.mem_append.mpr (Or.inl (List.mem_append.mpr (Or.inl ?_)))
  exact List.mem_map.mpr ⟨n, List.mem_filter.mpr ⟨hn, by simp [habs]⟩, rfl⟩

/-- C7: for every target app with at least one service, either the current app
state already contains a network named default, or the batch includes a
createNetwork step whose target network is named default; when neither side
declares that network, the created one is the synthesized default with driver
bridge. -/
theorem default_network_guarantee (ctx : Context) (current target : App)
    (_hsvc : target.services ≠ []) :
    (current.hasNetwork "default" = true ∨
      ∃ n, Step.createNetwork n ∈ App.nextStepsForAppUpdate current ctx target ∧
        n.name = "default") ∧
    (target.hasNetwork "default" = false → current.hasNetwork "default" = false →
      Step.createNetwork (defaultNetworkFor target.appId target.appUuid) ∈
        App.nextStepsForAppUpdate current ctx target ∧
      (defaultNetworkFor target.appId target.appUuid).config.driver = "bridge") := by
  constructor
  · by_cases hcur : current.hasNetwork "default" = true
    · exact Or.inl hcur
    · right
      rcases targetNetworks_default target with ⟨n, hn, hname⟩
      refine ⟨n, networkSteps_sub (createNetwork_mem hn ?_), hname⟩
      rw [hname]
      exact bool_false_of_not_true hcur
  · intro htgt hcur
    have hmem : defaultNetworkFor target.appId target.appUuid ∈ targetNetworks target := by
      unfold targetNetworks
      rw [if_neg (by simp [htgt])]
      simp
    refine ⟨networkSteps_sub (createNetwork_mem hmem ?_), rfl⟩
    rw [defaultNetworkFor_name]
    exact hcur

/-- Concrete context for the C7 witness. -/
def c7ctx : Context := {}

/-- Current app without a default network. -/
def c7cur : App := { appId := 1 }

/-- Target app with one service and no declared networks. -/
def c7tgt : App := { appId := 1, services := [{ serviceName := "main" }] }

/-- Witness for C7 at a target app with one service and no declared default. -/
theorem default_network_guarantee_witness :
    Step.createNetwork (defaultNetworkFor 1 "") ∈
      App.nextStepsForAppUpdate c7cur c7ctx c7tgt :=
  ((default_network_guarantee c7ctx c7cur c7tgt (by decide)).2 (by decide) (by decide)).1

/-! ## Claim C6 — teardown case analysis -/

/-- C6: a service only in current is handled exactly by its status — noop when
Stopping, remove when Dead, kill otherwise — and neither kill nor remove is
ever emitted for it when its status forbids them. -/
theorem teardown_case_analysis (ctx : Context) (current target : App) (cs : Service)
    (hmem : cs ∈ current.services) (honly : target.hasService cs.serviceName = false) :
    serviceTeardownStep cs ∈ App.nextStepsForAppUpdate current ctx target ∧
    (cs.status = .Stopping → Step.noop ∈ App.nextStepsForAppUpdate current ctx target ∧
      Step.kill cs ∉ App.nextStepsForAppUpdate current ctx target ∧
      Step.remove cs ∉ App.nextStepsForAppUpdate current ctx target) ∧
    (cs.status = .Dead → Step.remove cs ∈ App.nextStepsForAppUpdate current ctx target ∧
      Step.kill cs ∉ App.nextStepsForAppUpdate current ctx target) ∧
    (cs.status ≠ .Stopping → cs.status ≠ .Dead →
      Step.kill cs ∈ App.nextStepsForAppUpdate current ctx target) := by
  have hteardown : serviceTeardownStep cs ∈ App.nextStepsForAppUpdate current ctx target :=
    serviceSteps_sub (teardown_mem_serviceSteps hmem honly)
  have hnokill : cs.status = .Stopping ∨ cs.status = .Dead →
      Step.kill cs ∉ App.nextStepsForAppUpdate current ctx target := by
    intro hst hk
    rcases kill_source hk with ⟨_, h1, h2⟩ | hh
    · rcases hst with hst | hst
      · exact h1 hst
      · exact h2 hst
    · rw [honly] at hh
      cases hh
  refine ⟨hteardown, ?_, ?_, ?_⟩
  · intro hst
    refine ⟨?_, hnokill (Or.inl hst), ?_⟩
    · have he : serviceTeardownStep cs = .noop := by simp [serviceTeardownStep, hst]
      rw [he] at hteardown
      exact hteardown
    · intro hr
      have hd := remove_source hr
      rw [hst] at hd
      cases hd
  · intro hst
    refine ⟨?_, hnokill (Or.inr hst)⟩
    have he : serviceTeardownStep cs = .remove cs := by simp [serviceTeardownStep, hst]
    rw [he] at hteardown
    exact hteardown
  · intro h1 h2
    rcases teardownStep_cases cs with ⟨_, hst⟩ | ⟨_, hst⟩ | ⟨he, _, _⟩
    · exact absurd hst h1
    · exact absurd hst h2
    · rw [he] at hteardown
      exact hteardown

/-- Concrete context for the C6 witness. -/
def c6ctx : Context := {}

/-- A current-only service already stopping. -/
def c6svc : Service := { serviceName := "aux", status := .Stopping }

/-- Current app holding the stopping service. -/
def c6cur : App := { appId := 1, services := [c6svc] }

/-- Target app without the service. -/
def c6tgt : App := { appId := 1 }

/-- Witness for C6: the stopping current-only service yields noop and no kill. -/
theorem teardown_case_analysis_witness :
    Step.noop ∈ App.nextStepsForAppUpdate c6cur c6ctx c6tgt ∧
    Step.kill c6svc ∉ App.nextStepsForAppUpdate c6cur c6ctx c6tgt := by
  have h := (teardown_case_analysis c6ctx c6cur c6tgt c6svc (by decide) (by decide)).2.1 rfl
  exact ⟨h.1, h.2.1⟩

/-! ## Claim C3 — no fetch while downloading -/

/-- C3: no batch contains a fetch for an image whose imageId is in
context.downloading, and a target-only service whose image is absent while its
imageId is downloading contributes a noop instead of a fetch. -/
theorem no_fetch_while_downloading (ctx : Context) (current target : App) :
    (∀ img, Step.fetch img ∈ App.nextStepsForAppUpdate current ctx target →
      ctx.downloading.contains img.imageId = false) ∧
    (∀ ts, ts ∈ target.services → current.hasService ts.serviceName = false →
      ts.isAvailable ctx = false → ctx.downloading.contains ts.imageId = true →
      Step.noop ∈ App.nextStepsForAppUpdate current ctx target) := by
  constructor
  · intro img hmem
    rcases fetch_source hmem with ⟨ts, rfl, hdl⟩
    exact hdl
  · intro ts hts hhas hav hdl
    have hnone : current.lookupService ts.serviceName = none := by
      unfold App.hasService at hhas
      cases hl : current.lookupService ts.serviceName with
      | none => rfl
      | some s => rw [hl] at hhas; simp at hhas
    have hx : Step.noop ∈ installSteps ctx current ts := by
      unfold installSteps
      rw [if_pos hav]
      unfold fetchOrNoop
      rw [if_pos (show ts.isDownloading ctx = true from hdl)]
      simp
    exact serviceSteps_sub (install_mem_serviceSteps hts hnone hx)

/-- Target-only service whose image download is in flight. -/
def c3svc : Service := { serviceName := "main", imageId := 1 }

/-- Context with imageId 1 downloading. -/
def c3ctx : Context := { downloading := [1] }

/-- Empty current app for the C3 witness. -/
def c3cur : App := { appId := 1 }

/-- Target app holding the downloading service. -/
def c3tgt : App := { appId := 1, services := [c3svc] }

/-- Witness for C3: the downloading service yields a noop step. -/
theorem no_fetch_while_downloading_witness :
    Step.noop ∈ App.nextStepsForAppUpdate c3cur c3ctx c3tgt :=
  (no_fetch_while_downloading c3ctx c3cur c3tgt).2 c3svc (by decide) (by decide)
    (by decide) (by decide)


/-! ## More step lemmas for C4 and C5 -/

theorem lookupService_none {current : App} {nm : String}
    (h : current.hasService nm = false) : current.lookupService nm = none := by
  unfold App.hasService at h
  cases hl : current.lookupService nm with
  | none => rfl
  | some s => rw [hl] at h; simp at h

theorem eq_of_key_eq {α : Type} (key : α → String) {l : List α} {a b : α}
    (hnd : (l.map key).Nodup) (ha : a ∈ l) (hb : b ∈ l) (hk : key a = key b) : a = b := by
  induction l with
  | nil => cases ha
  | cons c t ih =>
    have hmap : (key c :: t.map key).Nodup := by simpa using hnd
    rcases List.mem_cons.mp ha with rfl | ha'
    · rcases List.mem_cons.mp hb with rfl | hb'
      · rfl
      · have hmem : key b ∈ t.map key := List.mem_map_of_mem key hb'
        rw [← hk] at hmem
        exact absurd hmem (List.nodup_cons.mp hmap).1
    · rcases List.mem_cons.mp hb with rfl | hb'
      · have hmem : key a ∈ t.map key := List.mem_map_of_mem key ha'
        rw [hk] at hmem
        exact absurd hmem (List.nodup_cons.mp hmap).1
      · exact ih (List.nodup_cons.mp hmap).2 ha' hb'

theorem pair_kill_mem {ctx : Context} {current target : App} {cs ts : Service}
    (hts : ts ∈ target.services) (hlk : current.lookupService ts.serviceName = some cs)
    (hdead : cs.status ≠ .Dead)
    (hmat : Service.isEqualExceptForRunningAndRelease cs ts = false)
    (hstrat : strategyOf ts = .killThenDownload) :
    Step.kill cs ∈ App.nextStepsForAppUpdate current ctx target := by
  refine serviceSteps_sub (updatePair_mem_serviceSteps hts hlk ?_)
  unfold updatePairSteps
  rw [if_neg hdead, if_neg (by simp [hmat]), hstrat]
  exact List.mem_singleton_self _

theorem pair_start_mem {ctx : Context} {current target : App} {cs ts : Service}
    (hts : ts ∈ target.services) (hlk : current.lookupService ts.serviceName = some cs)
    (hdead : cs.status ≠ .Dead)
    (hmat : Service.isEqualExceptForRunningAndRelease cs ts = true)
    (hrel : cs.releaseId = ts.releaseId) (himg : cs.imageId = ts.imageId)
    (hcr : cs.running = false) (htr : ts.running = true) :
    Step.start ts ∈ App.nextStepsForAppUpdate current ctx target := by
  refine serviceSteps_sub (updatePair_mem_serviceSteps hts hlk ?_)
  unfold updatePairSteps
  rw [if_neg hdead, if_pos hmat, if_neg (by simp [hrel, himg]),
    if_pos (by rw [hcr, htr]; simp), if_pos htr]
  exact List.mem_singleton_self _

theorem install_fetch_mem {ctx : Context} {current target : App} {ts : Service}
    (hts : ts ∈ target.services) (hhas : current.hasService ts.serviceName = false)
    (hav : ts.isAvailable ctx = false) (hdl : ts.isDownloading ctx = false) :
    Step.fetch (imageForService ts) ∈ App.nextStepsForAppUpdate current ctx target := by
  refine serviceSteps_sub (install_mem_serviceSteps hts (lookupService_none hhas) ?_)
  unfold installSteps
  rw [if_pos hav]
  unfold fetchOrNoop
  rw [if_neg (by simp [hdl])]
  exact List.mem_singleton_self _

theorem install_start_mem {ctx : Context} {current target : App} {ts : Service}
    (hts : ts ∈ target.services) (hhas : current.hasService ts.serviceName = false)
    (hav : ts.isAvailable ctx = true) (hres : resourcesReady current ts = true)
    (hdm : dependenciesMet ctx current ts = true) :
    Step.start ts ∈ App.nextStepsForAppUpdate current ctx target := by
  refine serviceSteps_sub (install_mem_serviceSteps hts (lookupService_none hhas) ?_)
  unfold installSteps
  rw [if_neg (by simp [hav]), if_neg (by simp [hres]), if_neg (by simp [hdm])]
  exact List.mem_singleton_self _

theorem updatePairSteps_fetch {ctx : Context} {cs ts : Service} {img : Image}
    (hx : Step.fetch img ∈ updatePairSteps ctx cs ts) :
    img = imageForService ts ∧ ts.isDownloading ctx = false ∧
    strategyOf ts ≠ .killThenDownload ∧ strategyOf ts ≠ .deleteThenDownload := by
  unfold updatePairSteps at hx
  by_cases hdead : cs.status = .Dead
  · rw [if_pos hdead] at hx
    have he := List.mem_singleton.mp hx
    simp at he
  · rw [if_neg hdead] at hx
    by_cases heq : Service.isEqualExceptForRunningAndRelease cs ts = true
    · rw [if_pos heq] at hx
      by_cases hrel : cs.releaseId ≠ ts.releaseId ∨ cs.imageId ≠ ts.imageId
      · rw [if_pos hrel] at hx
        have he := List.mem_singleton.mp hx
        simp at he
      · rw [if_neg hrel] at hx
        by_cases hrun : cs.running ≠ ts.running
        · rw [if_pos hrun] at hx
          by_cases htr : ts.running = true
          · rw [if_pos htr] at hx
            have he := List.mem_singleton.mp hx
            simp at he
          · rw [if_neg htr] at hx
            have he := List.mem_singleton.mp hx
            simp at he
        · rw [if_neg hrun] at hx
          cases hx
    · rw [if_neg heq] at hx
      cases hstrat : strategyOf ts with
      | killThenDownload =>
        rw [hstrat] at hx
        replace hx : Step.fetch img ∈ [Step.kill cs] := hx
        have he := List.mem_singleton.mp hx
        simp at he
      | deleteThenDownload =>
        rw [hstrat] at hx
        replace hx : Step.fetch img ∈ [Step.kill cs, Step.removeImage (imageForService cs)] := hx
        rcases List.mem_cons.mp hx with he | hx'
        · simp at he
        · have he := List.mem_singleton.mp hx'
          simp at he
      | handOver =>
        rw [hstrat] at hx
        replace hx : Step.fetch img ∈ (if ts.isAvailable ctx = false then [fetchOrNoop ctx ts]
          else [Step.handover cs ts]) := hx
        by_cases hav : ts.isAvailable ctx = false
        · rw [if_pos hav] at hx
          have he := List.mem_singleton.mp hx
          unfold fetchOrNoop at he
          by_cases hdl : ts.isDownloading ctx = true
          · rw [if_pos hdl] at he
            simp at he
          · rw [if_neg hdl] at he
            injection he with he'
            exact ⟨he', bool_false_of_not_true hdl, by simp [hstrat], by simp [hstrat]⟩
        · rw [if_neg hav] at hx
          have he := List.mem_singleton.mp hx
          simp at he
      | downloadThenKill =>
        rw [hstrat] at hx
        replace hx : Step.fetch img ∈ (if ts.isAvailable ctx = false then [fetchOrNoop ctx ts]
          else [Step.stop cs]) := hx
        by_cases hav : ts.isAvailable ctx = false
        · rw [if_pos hav] at hx
          have he := List.mem_singleton.mp hx
          unfold fetchOrNoop at he
          by_cases hdl : ts.isDownloading ctx = true
          · rw [if_pos hdl] at he
            simp at he
          · rw [if_neg hdl] at he
            injection he with he'
            exact ⟨he', bool_false_of_not_true hdl, by simp [hstrat], by simp [hstrat]⟩
        · rw [if_neg hav] at hx
          have he := List.mem_singleton.mp hx
          simp at he

theorem fetch_source_strong {ctx : Context} {current target : App} {img : Image}
    (h : Step.fetch img ∈ App.nextStepsForAppUpdate current ctx target) :
    ∃ ts, ts ∈ target.services ∧ img = imageForService ts ∧
      (current.lookupService ts.serviceName = none ∨
        (strategyOf ts ≠ .killThenDownload ∧ strategyOf ts ≠ .deleteThenDownload)) := by
  rcases appUpdateSteps_mem h with h | h | h
  · rcases volumeSteps_mem h with ⟨v, _, _, he⟩ | ⟨v, _, _, he⟩ | ⟨s', _, he⟩
    · simp at he
    · simp at he
    · exact absurd he.symm (teardownStep_ne_fetch s' img)
  · rcases networkSteps_mem h with ⟨n, he⟩ | ⟨n, he⟩ | ⟨s', _, he⟩
    · simp at he
    · simp at he
    · exact absurd he.symm (teardownStep_ne_fetch s' img)
  · rcases serviceSteps_mem h with ⟨cs, ts, hts, hlk, hx⟩ | ⟨ts, hts, hlk, hx⟩ | ⟨cs, _, _, he⟩
    · rcases updatePairSteps_fetch hx with ⟨he, _, h1, h2⟩
      exact ⟨ts, hts, he, Or.inr ⟨h1, h2⟩⟩
    · rcases installSteps_mem hx with ⟨he, _, _⟩ | he | ⟨he, _⟩
      · injection he with he'
        exact ⟨ts, hts, he', Or.inl hlk⟩
      · simp at he
      · simp at he
    · exact absurd he.symm (teardownStep_ne_fetch cs img)

theorem start_source {ctx : Context} {current target : App} {ts : Service}
    (h : Step.start ts ∈ App.nextStepsForAppUpdate current ctx target) :
    (∃ cs, current.lookupService ts.serviceName = some cs) ∨
    dependenciesMet ctx current ts = true := by
  rcases appUpdateSteps_mem h with h | h | h
  · rcases volumeSteps_mem h with ⟨v, _, _, he⟩ | ⟨v, _, _, he⟩ | ⟨s', _, he⟩
    · simp at he
    · simp at he
    · exact absurd he.symm (teardownStep_ne_start s' ts)
  · rcases networkSteps_mem h with ⟨n, he⟩ | ⟨n, he⟩ | ⟨s', _, he⟩
    · simp at he
    · simp at he
    · exact absurd he.symm (teardownStep_ne_start s' ts)
  · rcases serviceSteps_mem h with ⟨cs, ts', hts', hlk, hx⟩ | ⟨ts', hts', hlk, hx⟩ | ⟨cs, _, _, he⟩
    · rcases updatePairSteps_mem hx with ⟨he, _⟩ | he | he | he | he | he | he | he | ⟨he, _⟩
      · simp at he
      · simp at he
      · injection he with he'
        subst he'
        exact Or.inl ⟨cs, hlk⟩
      · simp at he
      · simp at he
      · simp at he
      · simp at he
      · simp at he
      · simp at he
    · rcases installSteps_mem hx with ⟨he, _⟩ | he | ⟨he, _, _, hdm⟩
      · simp at he
      · simp at he
      · injection he with he'
        subst he'
        exact Or.inr hdm
    · exact absurd he.symm (teardownStep_ne_start cs ts)

/-! ## Claim C4 — kill-then-download strategy -/

/-- C4: a paired service with a material config change and the
kill-then-download strategy first yields kill of the current service with no
fetch for that service in the same batch; once the current service is gone the
batch contains fetch of the new image (unless it is downloading); once it is
available the batch contains start of the target service. -/
theorem kill_then_download_rounds (ctx : Context) (current target : App) :
    (∀ cs ts, ts ∈ target.services →
      current.lookupService ts.serviceName = some cs →
      cs.status ≠ .Dead →
      Service.isEqualExceptForRunningAndRelease cs ts = false →
      strategyOf ts = .killThenDownload →
      (target.services.map (fun s => s.serviceName)).Nodup →
      Step.kill cs ∈ App.nextStepsForAppUpdate current ctx target ∧
      (∀ img, Step.fetch img ∈ App.nextStepsForAppUpdate current ctx target →
        img.serviceName ≠ ts.serviceName)) ∧
    (∀ ts, ts ∈ target.services → current.hasService ts.serviceName = false →
      ts.isAvailable ctx = false → ts.isDownloading ctx = false →
      Step.fetch (imageForService ts) ∈ App.nextStepsForAppUpdate current ctx target) ∧
    (∀ ts, ts ∈ target.services → current.hasService ts.serviceName = false →
      ts.isAvailable ctx = true → resourcesReady current ts = true →
      dependenciesMet ctx current ts = true →
      Step.start ts ∈ App.nextStepsForAppUpdate current ctx target) := by
  refine ⟨?_, ?_, ?_⟩
  · intro cs ts hts hlk hdead hmat hstrat hnd
    refine ⟨pair_kill_mem hts hlk hdead hmat hstrat, ?_⟩
    intro img hf hname
    rcases fetch_source_strong hf with ⟨ts', hts', rfl, hprov⟩
    have hkey : ts'.serviceName = ts.serviceName := hname
    have hts'' : ts' = ts := eq_of_key_eq (fun s => s.serviceName) hnd hts' hts hkey
    subst hts''
    rcases hprov with hnone | ⟨hk, _⟩
    · rw [hlk] at hnone
      exact Option.noConfusion hnone
    · exact hk hstrat
  · intro ts hts hhas hav hdl
    exact install_fetch_mem hts hhas hav hdl
  · intro ts hts hhas hav hres hdm
    exact install_start_mem hts hhas hav hres hdm

/-- Strategy label for the C4 witness. -/
def c4labels : LabelMap := [("io.balena.update.strategy", "kill-then-download")]

/-- Round-1 current service of the C4 witness. -/
def c4curSvc : Service :=
  { serviceName := "main", releaseId := 1, imageId := 1,
    imageName := some "main-image", labels := c4labels }

/-- Target service of the C4 witness (new release and image). -/
def c4tgtSvc : Service :=
  { serviceName := "main", releaseId := 2, imageId := 2,
    imageName := some "main-image-2", labels := c4labels }

/-- The old image, available in every round of the C4 witness. -/
def c4img : Image := { imageId := 1, name := some "main-image" }

/-- Round-1 and round-2 context: only the old image available. -/
def c4ctx1 : Context := { availableImages := [c4img] }

/-- Round-3 context: the new image has become available. -/
def c4ctx3 : Context :=
  { availableImages := [c4img, { imageId := 2, name := some "main-image-2" }] }

/-- The app default network shared by the C4 witness states. -/
def c4net : Network := defaultNetworkFor 1 ""

/-- Round-1 current app: old service present. -/
def c4curApp : App := { appId := 1, services := [c4curSvc], networks := [c4net] }

/-- Round-2 and round-3 current app: service killed, network kept. -/
def c4curApp2 : App := { appId := 1, networks := [c4net] }

/-- Target app of the C4 witness. -/
def c4tgtApp : App := { appId := 1, services := [c4tgtSvc], networks := [c4net] }

/-- Witness for C4 across the three reconciliation rounds of the repository's
kill-then-download test. -/
theorem kill_then_download_rounds_witness :
    Step.kill c4curSvc ∈ App.nextStepsForAppUpdate c4curApp c4ctx1 c4tgtApp ∧
    Step.fetch (imageForService c4tgtSvc) ∈
      App.nextStepsForAppUpdate c4curApp2 c4ctx1 c4tgtApp ∧
    Step.start c4tgtSvc ∈ App.nextStepsForAppUpdate c4curApp2 c4ctx3 c4tgtApp := by
  refine ⟨?_, ?_, ?_⟩
  · exact ((kill_then_download_rounds c4ctx1 c4curApp c4tgtApp).1 c4curSvc c4tgtSvc
      (by decide) (by decide) (by decide) (by decide) (by decide) (by decide)).1
  · exact (kill_then_download_rounds c4ctx1 c4curApp2 c4tgtApp).2.1 c4tgtSvc
      (by decide) (by decide) (by decide) (by decide)
  · exact (kill_then_download_rounds c4ctx3 c4curApp2 c4tgtApp).2.2 c4tgtSvc
      (by decide) (by decide) (by decide) (by decide) (by decide)

/-! ## Claim C5 — dependency gating -/

/-- C5: a target-only service with unmet dependencies is never started in this
round; a dependency present in current but not running (configs otherwise
equal) is started; and once the dependencies are Running with their containers
in the containerStarted memo, the dependent target-only service is started. -/
theorem dependency_gating (ctx : Context) (current target : App) :
    (∀ ts, ts ∈ target.services → current.hasService ts.serviceName = false →
      ts.dependsOn ≠ [] → dependenciesMet ctx current ts = false →
      Step.start ts ∉ App.nextStepsForAppUpdate current ctx target) ∧
    (∀ cs ts, ts ∈ target.services →
      current.lookupService ts.serviceName = some cs → cs.status ≠ .Dead →
      Service.isEqualExceptForRunningAndRelease cs ts = true →
      cs.releaseId = ts.releaseId → cs.imageId = ts.imageId →
      cs.running = false → ts.running = true →
      Step.start ts ∈ App.nextStepsForAppUpdate current ctx target) ∧
    (∀ ts, ts ∈ target.services → current.hasService ts.serviceName = false →
      ts.isAvailable ctx = true → resourcesReady current ts = true →
      dependenciesMet ctx current ts = true →
      Step.start ts ∈ App.nextStepsForAppUpdate current ctx target) := by
  refine ⟨?_, ?_, ?_⟩
  · intro ts hts hhas _hdeps hdm hmem
    rcases start_source hmem with ⟨cs, hlk⟩ | hdm'
    · rw [lookupService_none hhas] at hlk
      exact Option.noConfusion hlk
    · rw [hdm] at hdm'
      exact Bool.noConfusion hdm'
  · intro cs ts hts hlk hdead hmat hrel himg hcr htr
    exact pair_start_mem hts hlk hdead hmat hrel himg hcr htr
  · intro ts hts hhas hav hres hdm
    exact install_start_mem hts hhas hav hres hdm

/-- Default network of the C5 witness states. -/
def c5net : Network := defaultNetworkFor 1 ""

/-- Round-1 current dependency: installing, not yet running. -/
def c5curDep : Service :=
  { serviceName := "dep", serviceId := 2, imageId := 2, running := false,
    status := .Installing, containerId := some "id" }

/-- Target dependency service. -/
def c5tgtDep : Service := { serviceName := "dep", serviceId := 2, imageId := 2 }

/-- Target dependent service, depending on dep. -/
def c5tgtMain : Service :=
  { serviceName := "main", serviceId := 1, imageId := 1, dependsOn := ["dep"] }

/-- Both images of the C5 witness are available. -/
def c5imgs : List Image :=
  [{ imageId := 1, serviceId := 1, serviceName := "main" },
   { imageId := 2, serviceId := 2, serviceName := "dep" }]

/-- Round-1 context: images available, container not started. -/
def c5ctx1 : Context := { availableImages := c5imgs }

/-- Round-2 context: dep's container id known and marked started. -/
def c5ctx2 : Context :=
  { availableImages := c5imgs, containerIds := [("dep", "id")],
    containerStarted := ["id"] }

/-- Round-1 current app: only the installing dependency. -/
def c5cur1 : App := { appId := 1, services := [c5curDep], networks := [c5net] }

/-- Round-2 current dependency: running with its container id. -/
def c5curDep2 : Service :=
  { serviceName := "dep", serviceId := 2, imageId := 2, containerId := some "id" }

/-- Round-2 current app: the dependency running. -/
def c5cur2 : App := { appId := 1, services := [c5curDep2], networks := [c5net] }

/-- Target app of the C5 witness. -/
def c5tgtApp : App :=
  { appId := 1, services := [c5tgtMain, c5tgtDep], networks := [c5net] }

/-- Witness for C5 across the two rounds of the repository's dependency test:
round 1 starts dep but not main; round 2 starts main. -/
theorem dependency_gating_witness :
    Step.start c5tgtMain ∉ App.nextStepsForAppUpdate c5cur1 c5ctx1 c5tgtApp ∧
    Step.start c5tgtDep ∈ App.nextStepsForAppUpdate c5cur1 c5ctx1 c5tgtApp ∧
    Step.start c5tgtMain ∈ App.nextStepsForAppUpdate c5cur2 c5ctx2 c5tgtApp := by
  refine ⟨?_, ?_, ?_⟩
  · exact (dependency_gating c5ctx1 c5cur1 c5tgtApp).1 c5tgtMain (by decide) (by decide)
      (by decide) (by decide)
  · exact (dependency_gating c5ctx1 c5cur1 c5tgtApp).2.1 c5curDep c5tgtDep (by decide)
      (by decide) (by decide) (by decide) (by decide) (by decide) (by decide) (by decide)
  · exact (dependency_gating c5ctx2 c5cur2 c5tgtApp).2.2 c5tgtMain (by decide) (by decide)
      (by decide) (by decide) (by decide)


/-! ## Claim C2 — volume recreation ordering -/

theorem teardownStep_ne_removeVolume (s : Service) (v : Volume) :
    serviceTeardownStep s ≠ .removeVolume v := by
  rcases teardownStep_cases s with ⟨he, _⟩ | ⟨he, _⟩ | ⟨he, _, _⟩ <;> simp [he]

theorem teardownStep_ne_createVolume (s : Service) (v : Volume) :
    serviceTeardownStep s ≠ .createVolume v := by
  rcases teardownStep_cases s with ⟨he, _⟩ | ⟨he, _⟩ | ⟨he, _, _⟩ <;> simp [he]

theorem removeVolume_source {ctx : Context} {current target : App} {v : Volume}
    (h : Step.removeVolume v ∈ App.nextStepsForAppUpdate current ctx target) :
    current.hasVolume v.name = true ∧
    ∀ s ∈ current.services, s.referencesVolume v.name = false := by
  rcases appUpdateSteps_mem h with h | h | h
  · rcases volumeSteps_mem h with ⟨v', _, _, he⟩ | ⟨v', hhas, href, he⟩ | ⟨s', _, he⟩
    · simp at he
    · injection he with he'
      subst he'
      exact ⟨hhas, href⟩
    · exact absurd he.symm (teardownStep_ne_removeVolume s' v)
  · rcases networkSteps_mem h with ⟨n, he⟩ | ⟨n, he⟩ | ⟨s', _, he⟩
    · simp at he
    · simp at he
    · exact absurd he.symm (teardownStep_ne_removeVolume s' v)
  · rcases serviceSteps_mem h with ⟨cs, ts, _, _, hx⟩ | ⟨ts, _, _, hx⟩ | ⟨cs, _, _, he⟩
    · rcases updatePairSteps_mem hx with ⟨he, _⟩ | he | he | he | he | he | he | he | ⟨he, _⟩ <;>
        simp at he
    · rcases installSteps_mem hx with ⟨he, _⟩ | he | ⟨he, _⟩ <;> simp at he
    · exact absurd he.symm (teardownStep_ne_removeVolume cs v)

theorem createVolume_source {ctx : Context} {current target : App} {v : Volume}
    (h : Step.createVolume v ∈ App.nextStepsForAppUpdate current ctx target) :
    current.hasVolume v.name = false := by
  rcases appUpdateSteps_mem h with h | h | h
  · rcases volumeSteps_mem h with ⟨v', _, hhas, he⟩ | ⟨v', _, _, he⟩ | ⟨s', _, he⟩
    · injection he with he'
      subst he'
      exact hhas
    · simp at he
    · exact absurd he.symm (teardownStep_ne_createVolume s' v)
  · rcases networkSteps_mem h with ⟨n, he⟩ | ⟨n, he⟩ | ⟨s', _, he⟩
    · simp at he
    · simp at he
    · exact absurd he.symm (teardownStep_ne_createVolume s' v)
  · rcases serviceSteps_mem h with ⟨cs, ts, _, _, hx⟩ | ⟨ts, _, _, hx⟩ | ⟨cs, _, _, he⟩
    · rcases updatePairSteps_mem hx with ⟨he, _⟩ | he | he | he | he | he | he | he | ⟨he, _⟩ <;>
        simp at he
    · rcases installSteps_mem hx with ⟨he, _⟩ | he | ⟨he, _⟩ <;> simp at he
    · exact absurd he.symm (teardownStep_ne_createVolume cs v)

theorem volume_recreation_kill_mem {current target : App} {nm : String} {cv tv : Volume}
    (hcv : current.lookupVolume nm = some cv) (htv : target.lookupVolume nm = some tv)
    (hne : Volume.isEqualConfig cv tv = false)
    {s : Service} (hs : s ∈ current.services) (href : s.referencesVolume nm = true)
    (h1 : s.status ≠ .Stopping) (h2 : s.status ≠ .Dead) :
    Step.kill s ∈ volumeSteps current target := by
  unfold volumeSteps
  refine List.mem_append.mpr (Or.inr
    (List.mem_flatMap.mpr ⟨tv, (lookupVolume_name htv).2, ?_⟩))
  rw [(lookupVolume_name htv).1, hcv]
  show Step.kill s ∈ (if Volume.isEqualConfig cv tv = true then ([] : List Step)
    else volumeRecreationSteps current cv)
  rw [if_neg (by simp [hne])]
  unfold volumeRecreationSteps
  have hrefcv : s.referencesVolume cv.name = true := by
    rw [(lookupVolume_name hcv).1]
    exact href
  have hdep : s ∈ current.services.filter (fun q => q.referencesVolume cv.name) :=
    List.mem_filter.mpr ⟨hs, hrefcv⟩
  have hne' : ¬ ((current.services.filter
      (fun q => q.referencesVolume cv.name)).isEmpty = true) := by
    intro hemp
    rw [List.isEmpty_iff.mp hemp] at hdep
    cases hdep
  rw [if_neg hne']
  have hkill : serviceTeardownStep s = Step.kill s := by
    rcases teardownStep_cases s with ⟨_, hst⟩ | ⟨_, hst⟩ | ⟨he, _, _⟩
    · exact absurd hst h1
    · exact absurd hst h2
    · exact he
  exact List.mem_map.mpr ⟨s, hdep, hkill⟩

/-- The supervised base volume of the C2 counterexample. -/
def c2curVol : Volume := Volume.fromComposeObject "test-volume" 1 {}

/-- The target volume carrying one extra label, so the configs are unequal. -/
def c2tgtVol : Volume :=
  Volume.fromComposeObject "test-volume" 1 { labels := [("test", "test")] }

/-- A current service that references the volume but is already stopping. -/
def c2svc : Service :=
  { serviceName := "test", volumes := ["test-volume"], status := .Stopping }

/-- Context of the C2 counterexample. -/
def c2ctx : Context := {}

/-- Current app of the C2 counterexample. -/
def c2cur : App := { appId := 1, services := [c2svc], volumes := [c2curVol] }

/-- Target app of the C2 counterexample. -/
def c2tgt : App := { appId := 1, services := [c2svc], volumes := [c2tgtVol] }

/-- C2 counterexample: the volume test-volume is on both sides with unequal
configs and a current service references it, yet the batch contains no kill
for that service: its status is Stopping, so the service-kill rules direct a
noop instead (pinned by the repository's test 'should not output a kill step
for a service which is already stopping when changing a volume'). -/
theorem volume_recreation_counterexample :
    c2cur.lookupVolume "test-volume" = some c2curVol ∧
    c2tgt.lookupVolume "test-volume" = some c2tgtVol ∧
    Volume.isEqualConfig c2curVol c2tgtVol = false ∧
    c2svc ∈ c2cur.services ∧ Service.referencesVolume c2svc "test-volume" = true ∧
    Step.kill c2svc ∉ App.nextStepsForAppUpdate c2cur c2ctx c2tgt := by decide

/-- C2 amended: for a volume present on both sides with unequal configs, every
current service referencing it that is neither Stopping nor Dead is killed in
the same batch (Stopping and Dead dependents follow the service-kill rules:
noop and remove); removeVolume is emitted only when no current service
references the volume; createVolume only when the volume is absent from
current; and no batch contains createVolume and removeVolume for one name. -/
theorem volume_recreation_ordering (ctx : Context) (current target : App) :
    (∀ nm cv tv, current.lookupVolume nm = some cv →
      target.lookupVolume nm = some tv → Volume.isEqualConfig cv tv = false →
      ∀ s ∈ current.services, s.referencesVolume nm = true →
        s.status ≠ .Stopping → s.status ≠ .Dead →
        Step.kill s ∈ App.nextStepsForAppUpdate current ctx target) ∧
    (∀ v, Step.removeVolume v ∈ App.nextStepsForAppUpdate current ctx target →
      current.hasVolume v.name = true ∧
      ∀ s ∈ current.services, s.referencesVolume v.name = false) ∧
    (∀ v, Step.createVolume v ∈ App.nextStepsForAppUpdate current ctx target →
      current.hasVolume v.name = false) ∧
    (∀ v w, Step.createVolume v ∈ App.nextStepsForAppUpdate current ctx target →
      Step.removeVolume w ∈ App.nextStepsForAppUpdate current ctx target →
      v.name ≠ w.name) := by
  refine ⟨?_, ?_, ?_, ?_⟩
  · intro nm cv tv hcv htv hne s hs href h1 h2
    exact volumeSteps_sub (volume_recreation_kill_mem hcv htv hne hs href h1 h2)
  · intro v hv
    exact removeVolume_source hv
  · intro v hv
    exact createVolume_source hv
  · intro v w hv hw hvw
    have h1 := createVolume_source hv
    have h2 := (removeVolume_source hw).1
    rw [hvw] at h1
    rw [h1] at h2
    cases h2

/-- Running current service referencing the volume, for the C2 witness. -/
def c2wsvc : Service := { serviceName := "test", volumes := ["test-volume"] }

/-- Current app of the C2 witness. -/
def c2wcur : App := { appId := 1, services := [c2wsvc], volumes := [c2curVol] }

/-- Target app of the C2 witness. -/
def c2wtgt : App := { appId := 1, services := [c2wsvc], volumes := [c2tgtVol] }

/-- Witness for the amended C2 at the repository's volume-recreation fixture:
the running dependent is killed, and no removeVolume appears in this batch. -/
theorem volume_recreation_ordering_witness :
    Step.kill c2wsvc ∈ App.nextStepsForAppUpdate c2wcur c2ctx c2wtgt ∧
    Step.removeVolume c2curVol ∉ App.nextStepsForAppUpdate c2wcur c2ctx c2wtgt := by
  constructor
  · exact (volume_recreation_ordering c2ctx c2wcur c2wtgt).1 "test-volume" c2curVol c2tgtVol
      (by decide) (by decide) (by decide) c2wsvc (by decide) (by decide) (by decide) (by decide)
  · intro hmem
    have h := ((volume_recreation_ordering c2ctx c2wcur c2wtgt).2.1 c2curVol hmem).2
      c2wsvc (by decide)
    revert h
    decide

/-! ## Claim C1 — planner idempotence on a converged state -/

/-- The single-app state of the C1 counterexample: no services, no networks. -/
def c1App : App := { appId := 1 }

/-- Context of the C1 counterexample. -/
def c1Ctx : Context := {}

/-- C1 counterexample: re-running the planner with current equal to target on a
state lacking the default network yields a createNetwork step, not the empty
or noop-only batch the claim requires (the repository's test 'should create
the default network if it does not exist' pins exactly this behaviour). -/
theorem planner_idempotence_counterexample :
    ¬ (nextSteps c1Ctx [c1App] [c1App] = [] ∨
       nextSteps c1Ctx [c1App] [c1App] = [Step.noop]) := by decide

/-- Unique names within an app, reflecting the name-keyed maps of the source. -/
abbrev App.wellFormed (a : App) : Prop :=
  (a.services.map (fun s => s.serviceName)).Nodup ∧
  (a.networks.map (fun n => n.name)).Nodup ∧
  (a.volumes.map (fun v => v.name)).Nodup

theorem volumeIsEqualConfig_refl (v : Volume) : Volume.isEqualConfig v v = true := by
  simp [Volume.isEqualConfig, mapsEqual_refl]

theorem networkIsEqualConfig_refl (n : Network) : Network.isEqualConfig n n = true := by
  rw [isEqualConfig_eq]
  by_cases h : n.config.ipam.config.isEmpty
  · rw [if_pos h]
    have hh : n.config.ipam.config = [] := List.isEmpty_iff.mp h
    have heta : ({ n.config.ipam with config := [] } : IPAMConfig) = n.config.ipam := by
      rw [← hh]
    rw [heta]
    exact networkConfigEqual_refl _
  · rw [if_neg h]
    exact networkConfigEqual_refl _

theorem serviceMaterial_refl (s : Service) :
    Service.isEqualExceptForRunningAndRelease s s = true := by
  simp [Service.isEqualExceptForRunningAndRelease, mapsEqual_refl]

theorem updatePairSteps_self (ctx : Context) (s : Service) (hdead : s.status ≠ .Dead) :
    updatePairSteps ctx s s = [] := by
  unfold updatePairSteps
  rw [if_neg hdead, if_pos (serviceMaterial_refl s), if_neg (by simp), if_neg (by simp)]

theorem volumeSteps_self (a : App) (hnd : (a.volumes.map (fun v => v.name)).Nodup) :
    volumeSteps a a = [] := by
  unfold volumeSteps
  rw [List.append_eq_nil]
  constructor
  · rw [filter_nil_of_forall (fun tv htv => by simp [hasVolume_of_mem htv])]
    rfl
  · apply flatMap_nil_of_forall
    intro tv htv
    have hlk : a.lookupVolume tv.name = some tv := by
      unfold App.lookupVolume
      exact find?_key_self (fun v => v.name) hnd htv
    rw [hlk]
    show (if Volume.isEqualConfig tv tv = true then ([] : List Step)
      else volumeRecreationSteps a tv) = []
    rw [if_pos (volumeIsEqualConfig_refl tv)]

theorem networkSteps_self (a : App) (hnd : (a.networks.map (fun n => n.name)).Nodup)
    (hdef : a.hasNetwork "default" = true) : networkSteps a a = [] := by
  unfold networkSteps
  have htn : targetNetworks a = a.networks := by
    unfold targetNetworks
    rw [if_pos hdef]
  rw [htn, List.append_eq_nil, List.append_eq_nil]
  refine ⟨⟨?_, ?_⟩, ?_⟩
  · rw [filter_nil_of_forall (fun tn htn' => by simp [hasNetwork_of_mem htn'])]
    rfl
  · apply flatMap_nil_of_forall
    intro tn htn'
    have hlk : a.lookupNetwork tn.name = some tn := by
      unfold App.lookupNetwork
      exact find?_key_self (fun n => n.name) hnd htn'
    rw [hlk]
    show (if Network.isEqualConfig tn tn = true then ([] : List Step)
      else networkRemovalSteps a tn) = []
    rw [if_pos (networkIsEqualConfig_refl tn)]
  · rw [filter_nil_of_forall]
    · rfl
    · intro cn hcn
      have : (a.networks.any fun tn => tn.name == cn.name) = true :=
        List.any_eq_true.mpr ⟨cn, hcn, by simp⟩
      simp [this]

theorem serviceSteps_self (ctx : Context) (a : App)
    (hnd : (a.services.map (fun s => s.serviceName)).Nodup)
    (hdead : ∀ s ∈ a.services, s.status ≠ .Dead) : serviceSteps ctx a a = [] := by
  unfold serviceSteps
  rw [List.append_eq_nil]
  constructor
  · apply flatMap_nil_of_forall
    intro ts hts
    have hlk : a.lookupService ts.serviceName = some ts := by
      unfold App.lookupService
      exact find?_key_self (fun s => s.serviceName) hnd hts
    rw [hlk]
    show updatePairSteps ctx ts ts = []
    exact updatePairSteps_self ctx ts (hdead ts hts)
  · rw [filter_nil_of_forall (fun cs hcs => by simp [hasService_of_mem hcs])]
    rfl

theorem nextStepsForAppUpdate_self (ctx : Context) (a : App) (hwf : a.wellFormed)
    (hdef : a.hasNetwork "default" = true)
    (hdead : ∀ s ∈ a.services, s.status ≠ .Dead) :
    App.nextStepsForAppUpdate a ctx a = [] := by
  unfold App.nextStepsForAppUpdate
  rw [volumeSteps_self a hwf.2.2, networkSteps_self a hwf.2.1 hdef,
    serviceSteps_self ctx a hwf.1 hdead]
  rfl

/-- C1 amended: on a well-formed state whose apps all carry their default
network and no Dead service, re-running the planner with current equal to
target returns the empty batch, or the single noop when downloads are still
in flight; and applying noop leaves the state unchanged. -/
theorem planner_idempotence (ctx : Context) (S : List App)
    (hids : (S.map (fun a => a.appId)).Nodup)
    (hwf : ∀ a ∈ S, a.wellFormed)
    (hdef : ∀ a ∈ S, a.hasNetwork "default" = true)
    (hdead : ∀ a ∈ S, ∀ s ∈ a.services, s.status ≠ .Dead) :
    (nextSteps ctx S S = [] ∨ nextSteps ctx S S = [Step.noop]) ∧
    applyNoop S = S := by
  have hper : (S.flatMap fun t =>
      match S.find? (fun c => c.appId == t.appId) with
      | some c => c.nextStepsForAppUpdate ctx t
      | none => App.nextStepsForAppUpdate { appId := t.appId, appUuid := t.appUuid } ctx t)
      = [] := by
    apply flatMap_nil_of_forall
    intro t ht
    have hf : S.find? (fun c => c.appId == t.appId) = some t :=
      find?_key_self (fun a => a.appId) hids ht
    rw [hf]
    show App.nextStepsForAppUpdate t ctx t = []
    exact nextStepsForAppUpdate_self ctx t (hwf t ht) (hdef t ht) (hdead t ht)
  have hfil : (S.filter fun c => !(S.any fun t => t.appId == c.appId)) = [] := by
    apply filter_nil_of_forall
    intro c hc
    have hany : (S.any fun t => t.appId == c.appId) = true :=
      List.any_eq_true.mpr ⟨c, hc, by simp⟩
    simp [hany]
  constructor
  · by_cases hdl : ctx.downloading = []
    · left
      simp only [nextSteps]
      rw [hper, hfil]
      simp [hdl]
    · right
      simp only [nextSteps]
      rw [hper, hfil]
      simp [hdl]
  · rfl

/-- Converged service of the C1 witness. -/
def c1wSvc : Service := { serviceName := "main" }

/-- Default network of the C1 witness. -/
def c1wNet : Network := defaultNetworkFor 1 ""

/-- Converged single-app state of the C1 witness. -/
def c1wApp : App := { appId := 1, services := [c1wSvc], networks := [c1wNet] }

/-- Context of the C1 witness. -/
def c1wCtx : Context := {}

/-- Witness for the amended C1 at a converged one-app state. -/
theorem planner_idempotence_witness :
    (nextSteps c1wCtx [c1wApp] [c1wApp] = [] ∨
      nextSteps c1wCtx [c1wApp] [c1wApp] = [Step.noop]) ∧
    applyNoop [c1wApp] = [c1wApp] :=
  planner_idempotence c1wCtx [c1wApp] (by decide) (by decide) (by decide) (by decide)

end Balena
